import Mathlib

/-!
Formal model of the AdanAgent query-resolution and epistemic-governance
engine, developed as a shallow embedding of the TypeScript sources.

Conventions used throughout:
- JavaScript numbers are modeled as rationals (`ℚ`); all thresholds from
  `src/config.ts` are transcribed as exact rationals.
- JavaScript runtime primitives with no faithful pure model (`JSON.parse`,
  `Date.now`, float-to-string formatting, the markdown-cleanup regexes) are
  injected as explicit function parameters of the definitions that use them;
  every theorem below quantifies over these parameters.
- TypeScript string enums become inductives together with a `toStr` function
  returning the enum's string value.
- Regular expressions from the source are compiled by hand to executable
  matchers over `List Char`; each matcher's doc comment cites the regex it
  implements.
-/

namespace AdanAgent

/-- `CognitiveState` enum from `src/types.ts`. The TS member `PARTIAL` is
spelled `PARTIAL_` here. -/
inductive CognitiveState where
  | MISCONCEPTION
  | FOG
  | CORRECT
  | PARTIAL_
deriving DecidableEq, Repr

/-- `ConstraintStatus` enum from `src/types.ts`. -/
inductive ConstraintStatus where
  | GREEN
  | YELLOW
  | RED
  | FINFR
deriving DecidableEq, Repr

/-- `ProofLabel` enum from `src/types.ts`. -/
inductive ProofLabel where
  | VERIFIED
  | LIKELY
  | NEEDS_DATA
deriving DecidableEq, Repr

/-- The complexity levels accepted by `AdaEngine.process`. -/
inductive Complexity where
  | ELI5
  | STANDARD
  | TECHNICAL
deriving DecidableEq, Repr

/-- String value of a `CognitiveState` (TS enums are string-valued). -/
def CognitiveState.toStr : CognitiveState → String
  | .MISCONCEPTION => "MISCONCEPTION"
  | .FOG => "FOG"
  | .CORRECT => "CORRECT"
  | .PARTIAL_ => "PARTIAL"

/-- String value of a `ConstraintStatus`. -/
def ConstraintStatus.toStr : ConstraintStatus → String
  | .GREEN => "GREEN"
  | .YELLOW => "YELLOW"
  | .RED => "RED"
  | .FINFR => "FINFR"

/-- String value of a `ProofLabel`. -/
def ProofLabel.toStr : ProofLabel → String
  | .VERIFIED => "VERIFIED"
  | .LIKELY => "LIKELY"
  | .NEEDS_DATA => "NEEDS_DATA"

/-- String value of a `Complexity`. -/
def Complexity.toStr : Complexity → String
  | .ELI5 => "ELI5"
  | .STANDARD => "STANDARD"
  | .TECHNICAL => "TECHNICAL"

/-- `COGNITIVE_THRESHOLDS` from `src/config.ts`, transcribed exactly. -/
structure CognitiveThresholds where
  misconceptionHigh : ℚ
  fogHigh : ℚ
  correctHigh : ℚ
  ratioYellowMin : ℚ
  ratioRedMin : ℚ
  groundFloor : ℚ
  fallbackCorrectness : ℚ
  fallbackMisconceptionHigh : ℚ
  fallbackMisconceptionLow : ℚ
  trajectorySamples : Nat
  closureTolerance : ℚ

def COGNITIVE_THRESHOLDS : CognitiveThresholds :=
  { misconceptionHigh := 4/10
    fogHigh := 5/10
    correctHigh := 7/10
    ratioYellowMin := 8/10
    ratioRedMin := 12/10
    groundFloor := 5/100
    fallbackCorrectness := 62/100
    fallbackMisconceptionHigh := 35/100
    fallbackMisconceptionLow := 15/100
    trajectorySamples := 20
    closureTolerance := 5/100 }

/-! ## Governance calculus

Transcribed from `AdaEngine.process` in `src/services/adaEngine.ts`
(the block labelled NEWTON GOVERNANCE CALCULATIONS, lines 286-302):
`k = max(c, m)`, `f = 1 - k`; the cognitive state is the if-chain
MISCONCEPTION / FOG / CORRECT with default PARTIAL, and the constraint
status is the chain FINFR / RED / YELLOW with default GREEN over
`ground = max(0.01, 1 - m)` and `ratio = c / ground`. -/

/-- Cognitive-state if-chain of `AdaEngine.process`. -/
def cognitiveStateOf (c m : ℚ) : CognitiveState :=
  let k := max c m
  let f := 1 - k
  if m > c ∧ m > COGNITIVE_THRESHOLDS.misconceptionHigh then .MISCONCEPTION
  else if f > COGNITIVE_THRESHOLDS.fogHigh then .FOG
  else if c > COGNITIVE_THRESHOLDS.correctHigh then .CORRECT
  else .PARTIAL_

/-- `ground = max(0.01, 1.0 - m)` from `AdaEngine.process`. -/
def groundOf (m : ℚ) : ℚ := max (1/100) (1 - m)

/-- `ratio = c / ground` from `AdaEngine.process`. -/
def ratioOf (c m : ℚ) : ℚ := c / groundOf m

/-- Constraint-status if-chain of `AdaEngine.process`. -/
def constraintStatusOf (c m : ℚ) : ConstraintStatus :=
  if groundOf m ≤ COGNITIVE_THRESHOLDS.groundFloor then .FINFR
  else if ratioOf c m > COGNITIVE_THRESHOLDS.ratioRedMin then .RED
  else if ratioOf c m ≥ COGNITIVE_THRESHOLDS.ratioYellowMin then .YELLOW
  else .GREEN

/-- The specification's reading of the governance calculus: each state and
each status is characterized by the priority-resolved condition the spec
assigns to it (earlier checks negated in later characterizations). -/
def GovernanceCalculusSpec (c m : ℚ) : Prop :=
  (cognitiveStateOf c m = .MISCONCEPTION ↔ m > c ∧ m > 4/10) ∧
  (cognitiveStateOf c m = .FOG ↔ ¬(m > c ∧ m > 4/10) ∧ 1 - max c m > 5/10) ∧
  (cognitiveStateOf c m = .CORRECT ↔
    ¬(m > c ∧ m > 4/10) ∧ ¬(1 - max c m > 5/10) ∧ c > 7/10) ∧
  (cognitiveStateOf c m = .PARTIAL_ ↔
    ¬(m > c ∧ m > 4/10) ∧ ¬(1 - max c m > 5/10) ∧ ¬(c > 7/10)) ∧
  (constraintStatusOf c m = .FINFR ↔ groundOf m ≤ 5/100) ∧
  (constraintStatusOf c m = .RED ↔
    ¬(groundOf m ≤ 5/100) ∧ ratioOf c m > 12/10) ∧
  (constraintStatusOf c m = .YELLOW ↔
    ¬(groundOf m ≤ 5/100) ∧ ¬(ratioOf c m > 12/10) ∧ ratioOf c m ≥ 8/10) ∧
  (constraintStatusOf c m = .GREEN ↔
    ¬(groundOf m ≤ 5/100) ∧ ¬(ratioOf c m > 12/10) ∧ ¬(ratioOf c m ≥ 8/10))

/-! ## Glyph reference table and word mechanics

`GLYPH_DB` from `src/constants.ts` (a `Record<string, Glyph>` keyed by the 26
uppercase letters) and `WordMechanics.analyze` from
`src/services/kinematicEngine.ts` (identical in `src/unnamed/part_004`). -/

/-- `PhysicalProperty` from `src/types.ts`. -/
inductive PhysicalProperty where
  | STABILITY
  | CONTAINMENT
  | FLOW
  | STOP
  | ENERGY
  | ALIGNMENT
  | UNKNOWN
deriving DecidableEq, Repr

/-- `Glyph` from `src/types.ts`; `char` is a single character in practice. -/
structure Glyph where
  char : Char
  role : String
  physics : PhysicalProperty
  vector : String
deriving DecidableEq, Repr

/-- `GLYPH_DB` from `src/constants.ts`; `GLYPH_DB[c]` is `none` for keys
outside A-Z (the TS object access yields `undefined`). -/
def GLYPH_DB : Char → Option Glyph
  | 'A' => some ⟨'A', "Frame", .STABILITY, "Static equilibrium, load distribution"⟩
  | 'B' => some ⟨'B', "Dual Lobes", .CONTAINMENT, "Volume storage, redundancy"⟩
  | 'C' => some ⟨'C', "Open Arc", .FLOW, "Directional aperture, reception"⟩
  | 'D' => some ⟨'D', "Mass", .CONTAINMENT, "Gravitational load, heavy state"⟩
  | 'E' => some ⟨'E', "Tiers", .ENERGY, "Layering, hierarchical distribution"⟩
  | 'F' => some ⟨'F', "Cantilever", .ENERGY, "Reach, leverage, moment arm"⟩
  | 'G' => some ⟨'G', "Hook", .CONTAINMENT, "Capture, gating, flow control"⟩
  | 'H' => some ⟨'H', "Pillars", .STABILITY, "Bridging, tensile span"⟩
  | 'I' => some ⟨'I', "Axis", .ALIGNMENT, "Linear direction, verticality"⟩
  | 'J' => some ⟨'J', "Swing", .FLOW, "Redirected inertia"⟩
  | 'K' => some ⟨'K', "Shear", .STOP, "Kinetic impact, cutting action"⟩
  | 'L' => some ⟨'L', "Bend", .FLOW, "Flow redirection, pooling"⟩
  | 'M' => some ⟨'M', "Wave", .STABILITY, "Harmonic frequency, stable base"⟩
  | 'N' => some ⟨'N', "Bridge", .FLOW, "State transition, transfer"⟩
  | 'O' => some ⟨'O', "Loop", .CONTAINMENT, "Complete volume enclosure"⟩
  | 'P' => some ⟨'P', "Bulb", .ENERGY, "Pressure, stored potential"⟩
  | 'Q' => some ⟨'Q', "Queue", .CONTAINMENT, "Restricted exit volume"⟩
  | 'R' => some ⟨'R', "Brace", .ENERGY, "Resistance, force opposition"⟩
  | 'S' => some ⟨'S', "Curve", .FLOW, "Slip, flexibility, low friction"⟩
  | 'T' => some ⟨'T', "Post", .STOP, "Hard stop, limit, impact boundary"⟩
  | 'U' => some ⟨'U', "Vessel", .CONTAINMENT, "Reception, holding capacity"⟩
  | 'V' => some ⟨'V', "Focus", .ALIGNMENT, "Vector convergence, concentration"⟩
  | 'W' => some ⟨'W', "Valley", .ENERGY, "Oscillatory motion, instability"⟩
  | 'X' => some ⟨'X', "Cross", .STOP, "Torsional rigidity, locking"⟩
  | 'Y' => some ⟨'Y', "Fork", .ALIGNMENT, "Distribution, flow splitting"⟩
  | 'Z' => some ⟨'Z', "Zigzag", .ALIGNMENT, "Rapid direction change"⟩
  | _ => none

/-- `MechanicalStats` from `src/types.ts`. -/
structure MechanicalStats where
  stability : Nat
  containment : Nat
  energy : Nat
  flow : Nat
  stop : Nat
  alignment : Nat
deriving DecidableEq, Repr

/-- `AnalysisResult` from `src/types.ts`. -/
structure AnalysisResult where
  word : String
  glyphs : List Glyph
  stats : MechanicalStats
  profile : String
  loadPath : String
deriving DecidableEq, Repr

def emptyStats : MechanicalStats := ⟨0, 0, 0, 0, 0, 0⟩

/-- The loop body `if (g.physics !== 'UNKNOWN') stats[key]++`. -/
def bumpStat (s : MechanicalStats) : PhysicalProperty → MechanicalStats
  | .STABILITY => { s with stability := s.stability + 1 }
  | .CONTAINMENT => { s with containment := s.containment + 1 }
  | .ENERGY => { s with energy := s.energy + 1 }
  | .FLOW => { s with flow := s.flow + 1 }
  | .STOP => { s with stop := s.stop + 1 }
  | .ALIGNMENT => { s with alignment := s.alignment + 1 }
  | .UNKNOWN => s

/-- `word.toUpperCase().replace(/[^A-Z]/g, '')`. `Char.toUpper` upcases
ASCII letters like the JS call; code points whose JS uppercase is not the
identity and lands in A-Z are exotic and not depended on by any theorem. -/
def cleanWordOf (word : String) : List Char :=
  (word.data.map Char.toUpper).filter (fun c => decide ('A' ≤ c ∧ c ≤ 'Z'))

/-- The profile cascade of `WordMechanics.analyze`: sequential overwriting
`if` statements, later matches overriding earlier ones. -/
def profileOf (stats : MechanicalStats) : String :=
  let p := "AMORPHOUS"
  let p := if stats.stop > 0 ∧ stats.stability > 0 then "ARCHITECTURAL (Static)" else p
  let p := if stats.energy > 0 ∧ stats.containment > 0 then "DYNAMIC (Engine)" else p
  let p := if stats.containment > 0 ∧ stats.stop = 0 then "VESSEL (Holding)" else p
  let p := if stats.flow > 0 ∧ stats.energy > 0 then "FLUID DYNAMIC" else p
  if stats.stop > 0 ∧ stats.energy > 0 ∧ stats.alignment > 0 then "TOOL / WEAPON" else p

/-- `WordMechanics.analyze` from `src/services/kinematicEngine.ts`. -/
def WordMechanics.analyze (word : String) : AnalysisResult :=
  let cleanWord := cleanWordOf word
  let glyphs := cleanWord.map (fun c => (GLYPH_DB c).getD ⟨c, "UNK", .UNKNOWN, "Unknown"⟩)
  let stats := glyphs.foldl (fun s g => bumpStat s g.physics) emptyStats
  ⟨word, glyphs, stats, profileOf stats, String.intercalate " -> " (glyphs.map (·.role))⟩

/-- Total of the six mechanical stat counters. -/
def statsSum (s : MechanicalStats) : Nat :=
  s.stability + s.containment + s.energy + s.flow + s.stop + s.alignment

/-! ## String utilities

Hand-written models of the JS string operations the engine uses. -/

/-- JS whitespace (`\s`), restricted to the code points that occur in
practice. -/
def isJsWs (c : Char) : Bool :=
  c = ' ' || c = '\t' || c = '\n' || c = '\r' || c = '\x0b' || c = '\x0c' ||
  c = '\u00a0' || c = '\u2028' || c = '\u2029' || c = '\ufeff'

/-- `String.prototype.trim`. -/
def jsTrim (s : String) : String :=
  String.mk (((s.data.dropWhile isJsWs).reverse.dropWhile isJsWs).reverse)

/-- `s.split(/\s+/).filter(w => w.length > 0)`: the maximal runs of
non-whitespace characters, in order. -/
def jsTokens (s : String) : List String :=
  ((s.data.splitOnP isJsWs).map String.mk).filter (fun w => w != "")

/-- Lower-cased character list of a string (JS `toLowerCase`; `Char.toLower`
downcases ASCII like the JS call on the inputs the engine handles). -/
def lowerOf (s : String) : List Char := s.data.map Char.toLower

/-- Case-insensitive containment test; the pattern is given lower-case. -/
def containsCI (pat : String) (s : String) : Bool :=
  decide (pat.data <:+: lowerOf s)

/-! ## Tier-1 regex matchers

Each Tier-1 regex of `KinematicEngine.matchTier1` is one of three shapes:
an alternation of literals followed by a greedy `(.+)` capture; literal
alternatives, a greedy `(.+)` capture and a literal tail; or a lazy `(.+?)`
capture with an optional infix and a literal tail.  The matchers below
implement JS `String.prototype.match` semantics for exactly these shapes:
leftmost match position wins, alternation branches are tried in order,
`.` does not match line terminators, `/i` compares case-insensitively. -/

/-- JS line terminators, which `.` does not match. -/
def isLineTerm (c : Char) : Bool :=
  c = '\n' || c = '\r' || c = '\u2028' || c = '\u2029'

/-- Case-insensitive literal test at the start of `pos`; the literal is
given lower-case, `pos` keeps its original casing. -/
def ciPrefixAt (lit : List Char) (pos : List Char) : Bool :=
  (pos.take lit.length).map Char.toLower == lit

/-- Backtracking over match start positions: the leftmost position at which
the local matcher succeeds wins. -/
def scanPos {α : Type} (f : List Char → Option α) : List Char → Option α
  | [] => f []
  | c :: rest =>
    match f (c :: rest) with
    | some a => some a
    | none => scanPos f rest

/-- Matcher for `(?:lit₁|...|litₙ)(.+)`: at the leftmost position where some
alternative (tried in order) is followed by at least one non-line-terminator
character, capture the maximal run of such characters (greedy `.+`). -/
def execLitsRest (lits : List (List Char)) (q : List Char) : Option (List Char) :=
  scanPos (fun pos =>
    lits.findSome? (fun lit =>
      if ciPrefixAt lit pos then
        let cap := (pos.drop lit.length).takeWhile (fun c => !isLineTerm c)
        if cap.isEmpty then none else some cap
      else none)) q

/-- Largest offset `k` with `1 ≤ k ≤ n` such that the literal matches at
offset `k` of `rest`: the backtracking of a greedy `(.+)` before a literal
tail. -/
def lastLitPos (lit : List Char) (rest : List Char) : Nat → Option Nat
  | 0 => none
  | n + 1 =>
    if ciPrefixAt lit (rest.drop (n + 1)) then some (n + 1)
    else lastLitPos lit rest n

/-- Matcher for `(?:pre₁|...|preₙ)(.+)post`. -/
def execPreRestPost (pres : List (List Char)) (post : List Char)
    (q : List Char) : Option (List Char) :=
  scanPos (fun pos =>
    pres.findSome? (fun pre =>
      if ciPrefixAt pre pos then
        let rest := pos.drop pre.length
        let line := rest.takeWhile (fun c => !isLineTerm c)
        match lastLitPos post rest line.length with
        | some k => some (rest.take k)
        | none => none
      else none)) q

/-- One lazy-capture growth step for `(.+?)(opt)?post`: at capture length
`k`, the greedy optional infix is tried before the bare tail; on failure the
lazy capture grows by one character. -/
def lazyStep (optPost post : List Char) (pos : List Char) : Nat → Nat → Option (List Char)
  | _, 0 => none
  | k, fuel + 1 =>
    if k > pos.length then none
    else if !((pos.take k).all (fun c => !isLineTerm c)) then none
    else if ciPrefixAt optPost (pos.drop k) || ciPrefixAt post (pos.drop k) then
      some (pos.take k)
    else lazyStep optPost post pos (k + 1) fuel

/-- Matcher for `(.+?)(opt)?post` (e.g. `/(.+?)('s)? law/i`). -/
def execLazyOptPost (optPost post : List Char) (q : List Char) : Option (List Char) :=
  scanPos (fun pos => lazyStep optPost post pos 1 pos.length) q

/-- The three regex shapes used by Tier-1 patterns. Literals are stored
lower-case; `exec` computes `query.match(regex)[1]`. -/
inductive RegexPat where
  | litsRest (lits : List String)
  | preRestPost (pres : List String) (post : String)
  | lazyOptPost (optPost post : String)

def RegexPat.exec (p : RegexPat) (q : String) : Option String :=
  match p with
  | .litsRest lits => (execLitsRest (lits.map String.data) q.data).map String.mk
  | .preRestPost pres post =>
    (execPreRestPost (pres.map String.data) post.data q.data).map String.mk
  | .lazyOptPost optPost post =>
    (execLazyOptPost optPost.data post.data q.data).map String.mk

/-- `QueryShape` enum from `src/types.ts`. -/
inductive QueryShape where
  | CAPITAL_OF
  | FOUNDER_OF
  | POPULATION_OF
  | LANGUAGE_OF
  | CURRENCY_OF
  | PHYSICS_LAW
  | ATOMIC_NUMBER
  | LEADER_OF
  | HISTORY_OF
  | LOCATION_OF
  | BIOLOGY_OF
  | MATH_OF
  | DEFINITION_OF
  | INVENTION_OF
  | COMPOSED_BY
  | UNKNOWN
deriving DecidableEq, Repr

/-- String value of a `QueryShape`. -/
def QueryShape.toStr : QueryShape → String
  | .CAPITAL_OF => "capital(X) = ?"
  | .FOUNDER_OF => "founder(X) = ?"
  | .POPULATION_OF => "population(X) = ?"
  | .LANGUAGE_OF => "language(X) = ?"
  | .CURRENCY_OF => "currency(X) = ?"
  | .PHYSICS_LAW => "law(X) = ?"
  | .ATOMIC_NUMBER => "atomic_num(X) = ?"
  | .LEADER_OF => "leader(X) = ?"
  | .HISTORY_OF => "history(X) = ?"
  | .LOCATION_OF => "location(X) = ?"
  | .BIOLOGY_OF => "biology(X) = ?"
  | .MATH_OF => "math(X) = ?"
  | .DEFINITION_OF => "define(X) = ?"
  | .INVENTION_OF => "inventor(X) = ?"
  | .COMPOSED_BY => "composer(X) = ?"
  | .UNKNOWN => "UNKNOWN"

/-- The ordered Tier-1 `(regex, shape)` list of `KinematicEngine.matchTier1`
(`src/unnamed/part_004` lines 49-68), each regex compiled to its matcher
shape.  Alternation branches appear in JS backtracking order: for `leads?`
the branch with the `s` is tried first (greedy `?`), and `'s` is written
with an escaped apostrophe. -/
def tier1Patterns : List (RegexPat × QueryShape) :=
  [ (.litsRest ["capital of "], .CAPITAL_OF),
    (.litsRest ["who founded "], .FOUNDER_OF),
    (.litsRest ["population of "], .POPULATION_OF),
    (.litsRest ["atomic number of "], .ATOMIC_NUMBER),
    (.lazyOptPost "\x27s law" " law", .PHYSICS_LAW),
    (.litsRest ["language of "], .LANGUAGE_OF),
    (.litsRest ["currency of "], .CURRENCY_OF),
    (.litsRest ["president of "], .LEADER_OF),
    (.litsRest ["leader of "], .LEADER_OF),
    (.litsRest ["who leads ", "who lead ", "who rules ", "who rule ",
                "who governs ", "who govern "], .LEADER_OF),
    (.litsRest ["who invented "], .INVENTION_OF),
    (.litsRest ["who discovered "], .INVENTION_OF),
    (.litsRest ["who wrote ", "who composed ", "who authored "], .COMPOSED_BY),
    (.litsRest ["where is "], .LOCATION_OF),
    (.litsRest ["define "], .DEFINITION_OF),
    (.preRestPost ["what is ", "what does "] " mean", .DEFINITION_OF),
    (.litsRest ["history of "], .HISTORY_OF),
    (.lazyOptPost "\x27s theorem" " theorem", .MATH_OF) ]

/-- `replace(/[?]+$/, '')`: strip the trailing run of `'?'` characters. -/
def stripTrailingQMarks (s : String) : String :=
  String.mk ((s.data.reverse.dropWhile (fun c => c = '?')).reverse)

/-- `match[1].trim().replace(/[?]+$/, '').trim()`. -/
def tier1Entity (cap : String) : String :=
  jsTrim (stripTrailingQMarks (jsTrim cap))

/-! ## Result records -/

/-- The `csv` block of `SearchResult`. -/
structure CsvData where
  c : ℚ
  m : ℚ
  f : ℚ
  k : ℚ
  state : CognitiveState
deriving DecidableEq, Repr

/-- The `constraint` block of `SearchResult`. -/
structure ConstraintData where
  status : ConstraintStatus
  ratio : ℚ
deriving DecidableEq, Repr

/-- `LexicalNode` from `src/types.ts`. -/
structure LexicalNode where
  synonyms : List String
  antonyms : List String
  equation : String
deriving DecidableEq, Repr

/-- `LedgerStep` from `src/types.ts`; `timestamp` is ms since resolution
start. -/
structure LedgerStep where
  step : Nat
  action : String
  detail : String
  timestamp : Nat
deriving DecidableEq, Repr

/-- `SearchResult` from `src/types.ts`.  `action` is a `String` because
`AdaEngine.process` stores `evalData.action as Action`, an unchecked cast of
an arbitrary string, and the TS enum members are their own string values.
TS-optional fields are `Option`s; `groundingSources` is modeled by the list
of source URIs. -/
structure SearchResult where
  tier : Nat
  method : String
  shape : String
  entity : String
  confidence : ℚ
  details : String
  insight : String
  lexical : Option LexicalNode
  csv : CsvData
  constraint : ConstraintData
  action : String
  trajectoryPoints : List (List ℚ)
  isClosed : Bool
  groundingSources : Option (List String)
  proofLabel : Option ProofLabel
  ledger : Option (List LedgerStep)
  glyphAnalysis : Option AnalysisResult
  error : Option String
deriving DecidableEq, Repr

/-- The Tier-1 result record built inside the pattern loop of `matchTier1`. -/
def tier1Result (shape : QueryShape) (cap : String) : SearchResult :=
  let entity := tier1Entity cap
  { tier := 1
    method := "Rigid Pattern Match"
    shape := shape.toStr
    entity := entity
    confidence := 1
    details := "Exact regex match found. Signal clarity: 100%."
    insight := "Rigid resolution complete for " ++ entity ++ ". Mapping to " ++
      shape.toStr ++ " schema."
    lexical := none
    csv := ⟨1, 0, 0, 1, .CORRECT⟩
    constraint := ⟨.GREEN, 1⟩
    action := "RESPOND"
    trajectoryPoints := [[0, 0], [1, 1]]
    isClosed := true
    groundingSources := none
    proofLabel := none
    ledger := none
    glyphAnalysis := none
    error := none }

/-- The first Tier-1 pattern (in list order) matching the query, with its
capture group. -/
def tier1FirstMatch (q : String) : Option (QueryShape × String) :=
  tier1Patterns.findSome? (fun ps => (ps.1.exec q).map (fun cap => (ps.2, cap)))

/-- `KinematicEngine.matchTier1` (`src/unnamed/part_004` lines 48-92): the
for-loop returns the result record of the first matching pattern and `null`
when no pattern matches. -/
def matchTier1 (q : String) : Option SearchResult :=
  (tier1FirstMatch q).map (fun sc => tier1Result sc.1 sc.2)

/-! ## Tier 2: semantic cluster resonance -/

/-- `SEMANTIC_CLUSTERS` from `src/constants.ts` (sets transcribed as lists in
source order). -/
def SEMANTIC_CLUSTERS : List (String × List String) :=
  [ ("CAPITAL", ["capital", "seat", "government", "rule", "govern",
      "headquarters", "center", "city", "administrative"]),
    ("FOUNDER", ["founder", "found", "founded", "create", "created", "start",
      "started", "build", "built", "establish", "established", "originate",
      "originated", "begin", "began", "commence", "launched", "creator",
      "father", "cofounder"]),
    ("POPULATION", ["population", "people", "inhabitants", "citizens",
      "residents", "live", "living", "populate", "demographics", "census"]),
    ("PHYSICS", ["law", "theory", "principle", "equation", "force", "motion",
      "relativity", "thermodynamics", "gravity", "physics", "quantum",
      "entropy", "momentum", "velocity", "acceleration"]),
    ("ELEMENT", ["element", "atom", "atomic", "chemical", "periodic",
      "symbol", "molecule", "compound", "proton", "electron", "neutron",
      "isotope", "valence"]),
    ("LANGUAGE", ["language", "speak", "spoken", "tongue", "dialect",
      "linguistic", "official", "native", "bilingual", "multilingual"]),
    ("CURRENCY", ["currency", "money", "monetary", "coin", "banknote",
      "denomination", "exchange", "tender", "dollar", "euro", "yen",
      "pound"]),
    ("LEADER", ["president", "prime", "minister", "king", "queen", "emperor",
      "chancellor", "leader", "ruler", "monarch", "sultan", "dictator",
      "ceo", "chairman", "director", "head", "chief", "governor", "mayor",
      "senator", "secretary", "premier"]),
    ("HISTORY", ["history", "historical", "war", "battle", "revolution",
      "empire", "dynasty", "era", "period", "ancient", "medieval",
      "colonial", "independence", "treaty", "conquest", "civilization",
      "reign", "century", "decade", "year", "event", "happened", "occur",
      "occurred"]),
    ("LOCATION", ["located", "location", "where", "continent", "region",
      "country", "border", "neighboring", "geography", "geographical",
      "latitude", "longitude", "north", "south", "east", "west", "ocean",
      "sea", "river", "mountain", "lake", "island", "peninsula", "desert"]),
    ("BIOLOGY", ["species", "organism", "cell", "gene", "genetic", "dna",
      "rna", "protein", "enzyme", "bacteria", "virus", "evolution",
      "taxonomy", "kingdom", "phylum", "genus", "mammal", "reptile",
      "amphibian", "photosynthesis", "mitosis", "ecosystem", "habitat",
      "organ", "anatomy", "biology", "biological"]),
    ("MATH", ["calculate", "calculation", "formula", "theorem", "proof",
      "algebra", "calculus", "geometry", "trigonometry", "integral",
      "derivative", "matrix", "vector", "polynomial", "logarithm",
      "factorial", "prime", "fibonacci", "arithmetic", "mathematical",
      "math", "mathematics", "sum", "product", "quotient"]),
    ("DEFINITION", ["define", "definition", "meaning", "means", "meant",
      "term", "concept", "describe", "description", "explain",
      "explanation", "refer", "refers", "denote", "denotes", "signify",
      "signifies", "synonym", "antonym", "etymology"]),
    ("INVENTION", ["invent", "invented", "inventor", "invention", "patent",
      "discover", "discovered", "discovery", "discoverer", "devised",
      "designed", "designer", "pioneer", "pioneered", "innovator",
      "innovation", "breakthrough"]),
    ("COMPOSER", ["compose", "composed", "composer", "composition",
      "symphony", "concerto", "sonata", "opera", "wrote", "written",
      "author", "authored", "playwright", "novelist", "poet", "songwriter",
      "directed", "director", "film", "movie", "painted", "painter",
      "sculpted", "sculptor", "artist"]) ]

/-- `SEMANTIC_CLUSTERS[clusterName]` (keyword set of a named cluster). -/
def clusterKeywords (name : String) : List String :=
  ((SEMANTIC_CLUSTERS.find? (fun p => p.1 == name)).map (fun p => p.2)).getD []

/-- `NOISE_WORDS` from `matchTier2`. -/
def NOISE_WORDS : List String :=
  ["what", "does", "from", "the", "who", "is", "are", "was", "were", "of",
   "a", "an", "in", "on", "at", "to", "for"]

/-- `query.toLowerCase().replace(/[^a-z0-9 ]/g, "").split(" ").filter(w => w.length > 2)`. -/
def tier2Normalize (q : String) : List String :=
  let kept := (lowerOf q).filter (fun c =>
    decide ('a' ≤ c ∧ c ≤ 'z') || decide ('0' ≤ c ∧ c ≤ '9') || c = ' ')
  ((kept.splitOn ' ').map String.mk).filter (fun w => w.length > 2)

/-- `token.toLowerCase().replace(/[^a-z0-9]/g, '')`. -/
def normalizeToken (t : String) : String :=
  String.mk ((lowerOf t).filter (fun c =>
    decide ('a' ≤ c ∧ c ≤ 'z') || decide ('0' ≤ c ∧ c ≤ '9')))

/-- The running best cluster match of `matchTier2`. -/
structure BestMatch where
  shape : QueryShape
  score : Nat
  clusterName : String
deriving DecidableEq, Repr

/-- Tokens of the normalized query found in the named cluster's keyword set,
counted with multiplicity (the `forEach` overlap counter of
`checkCluster`). -/
def overlapCount (q : String) (name : String) : Nat :=
  ((tier2Normalize q).filter (fun w => (clusterKeywords name).contains w)).length

/-- One `checkCluster(...)` call: strict `>` update of the running best. -/
def checkCluster (q : String) (best : BestMatch) (name : String)
    (shape : QueryShape) : BestMatch :=
  if overlapCount q name > best.score then ⟨shape, overlapCount q name, name⟩
  else best

/-- The fixed cluster check order of `matchTier2`
(`src/unnamed/part_004` lines 117-131). -/
def clusterOrder : List (String × QueryShape) :=
  [ ("CAPITAL", .CAPITAL_OF), ("FOUNDER", .FOUNDER_OF),
    ("POPULATION", .POPULATION_OF), ("PHYSICS", .PHYSICS_LAW),
    ("ELEMENT", .ATOMIC_NUMBER), ("LANGUAGE", .LANGUAGE_OF),
    ("CURRENCY", .CURRENCY_OF), ("LEADER", .LEADER_OF),
    ("HISTORY", .HISTORY_OF), ("LOCATION", .LOCATION_OF),
    ("BIOLOGY", .BIOLOGY_OF), ("MATH", .MATH_OF),
    ("DEFINITION", .DEFINITION_OF), ("INVENTION", .INVENTION_OF),
    ("COMPOSER", .COMPOSED_BY) ]

/-- The fifteen sequential `checkCluster` calls of `matchTier2`, as a fold
over the check order, starting from `{shape: UNKNOWN, score: 0,
clusterName: ""}`. -/
def tier2Best (q : String) : BestMatch :=
  clusterOrder.foldl (fun b ns => checkCluster q b ns.1 ns.2) ⟨.UNKNOWN, 0, ""⟩

/-- Tier-2 entity extraction: the original whitespace-split tokens whose
lowercase-alphanumeric normalization is neither a winning-cluster keyword,
nor a noise word, nor empty, joined by single spaces; the literal
`"Unknown"` when nothing survives. -/
def tier2Entity (q : String) (clusterName : String) : String :=
  let entityTokens := (jsTokens q).filter (fun token =>
    let n := normalizeToken token
    !(clusterKeywords clusterName).contains n && !NOISE_WORDS.contains n &&
      decide (0 < n.length))
  let e := String.intercalate " " entityTokens
  if e = "" then "Unknown" else e

/-- The Tier-2 result record (`matchTier2`, taken when
`bestMatch.score >= 1`). -/
def tier2Result (q : String) (best : BestMatch) : SearchResult :=
  let entity := tier2Entity q best.clusterName
  { tier := 2
    method := "Semantic Cluster Resonance"
    shape := best.shape.toStr
    entity := entity
    confidence := min (95/100) (7/10 + (best.score : ℚ) * (1/10))
    details := "Resonated with [" ++ best.clusterName ++
      "] cluster. Overlap score: " ++ toString best.score ++ "."
    insight := "Heuristic match suggests " ++ entity ++ " correlates with " ++
      best.shape.toStr ++ "."
    lexical := none
    csv := ⟨85/100, 5/100, 1/10, 85/100, .PARTIAL_⟩
    constraint := ⟨.YELLOW, 9/10⟩
    action := "RESPOND"
    trajectoryPoints := [[0, 0], [1/2, 1/2], [1, 1]]
    isClosed := true
    groundingSources := none
    proofLabel := none
    ledger := none
    glyphAnalysis := none
    error := none }

/-- `KinematicEngine.matchTier2` (`src/unnamed/part_004` lines 94-159). -/
def matchTier2 (q : String) : Option SearchResult :=
  if (tier2Best q).score ≥ 1 then some (tier2Result q (tier2Best q)) else none

/-- Specification-side quantity: the highest overlap count over the clusters
in check order. -/
def maxOverlap (q : String) : Nat :=
  (clusterOrder.map (fun ns => overlapCount q ns.1)).foldl max 0


/-! ## Tier 3 and the resolver state machine -/

/-- Outcome of one delegated-reasoning call (`await callFreeAI(...)` inside a
try/catch): `ok text` models a successful resolution returning `text`,
`error msg` models a thrown error whose message is `msg` (for non-`Error`
throwables the source substitutes a fixed string, which `msg` then is). -/
abbrev AiOutcome := Except String String

/-- `KinematicEngine.matchTier3` (`src/unnamed/part_004` lines 161-206); the
query only feeds the delegated prompt, which the outcome parameter models. -/
def matchTier3 (_q : String) (outcome : AiOutcome) : SearchResult :=
  match outcome with
  | .ok text =>
    { tier := 3
      method := "Free-AI Latent Resonance"
      shape := QueryShape.UNKNOWN.toStr
      entity := "Resolved via LLM"
      confidence := 85/100
      details := "High-entropy signal resolved via deep latent space mapping."
      insight := text
      lexical := none
      csv := ⟨75/100, 1/10, 15/100, 75/100, .PARTIAL_⟩
      constraint := ⟨.GREEN, 1⟩
      action := "RESPOND"
      trajectoryPoints := [[0, 0], [2/10, 8/10], [1, 1]]
      isClosed := true
      groundingSources := none
      proofLabel := none
      ledger := none
      glyphAnalysis := none
      error := none }
  | .error msg =>
    { tier := 3
      method := "Failed Vector Search"
      shape := QueryShape.UNKNOWN.toStr
      entity := "System Error"
      confidence := 0
      details := "Connection to latent manifold severed."
      insight := "Manifold structural collapse: Unable to resolve semantic signal."
      lexical := none
      csv := ⟨0, 0, 1, 0, .FOG⟩
      constraint := ⟨.RED, 0⟩
      action := "ABSTAIN"
      trajectoryPoints := [[0, 0]]
      isClosed := false
      groundingSources := none
      proofLabel := none
      ledger := none
      glyphAnalysis := none
      error := some msg }

/-- `KinematicEngine.process`: Tier 1, else Tier 2, else Tier 3. -/
def kinematicProcess (q : String) (outcome : AiOutcome) : SearchResult :=
  match matchTier1 q with
  | some r => r
  | none =>
    match matchTier2 q with
    | some r => r
    | none => matchTier3 q outcome

/-! ## Bezier trajectory primitive

`Vec` and `BezierPrimitive` from `src/services/adaEngine.ts` (lines
170-197). -/

/-- `Vec.add`: `v1.map((val, i) => val + (v2[i] || 0))` — the result has
`v1`'s length and missing right-hand entries read as 0. -/
def vecAdd : List ℚ → List ℚ → List ℚ
  | [], _ => []
  | x :: xs, [] => (x + 0) :: vecAdd xs []
  | x :: xs, y :: ys => (x + y) :: vecAdd xs ys

/-- `Vec.scale`: `v.map(val => val * s)`. -/
def vecScale (v : List ℚ) (s : ℚ) : List ℚ := v.map (fun val => val * s)

/-- `Vec.equals`: `v1.every((val, i) => Math.abs(val - (v2[i] || 0)) < tolerance)`. -/
def vecEquals : List ℚ → List ℚ → ℚ → Bool
  | [], _, _ => true
  | x :: xs, [], tol => decide (|x - 0| < tol) && vecEquals xs [] tol
  | x :: xs, y :: ys, tol => decide (|x - y| < tol) && vecEquals xs ys tol

/-- `BezierPrimitive.evaluate(t)` with control points `P0 P1 P2 P3`. -/
def bezierEvaluate (P0 P1 P2 P3 : List ℚ) (t : ℚ) : List ℚ :=
  let mt := 1 - t
  let mt2 := mt * mt
  let mt3 := mt2 * mt
  let t2 := t * t
  let t3 := t2 * t
  vecAdd (vecAdd (vecScale P0 mt3) (vecScale P1 (3 * mt2 * t)))
    (vecAdd (vecScale P2 (3 * mt * t2)) (vecScale P3 t3))

/-- `BezierPrimitive.checkClosure()`: compare `evaluate(1.0)` to `P3` with
`COGNITIVE_THRESHOLDS.closureTolerance`. -/
def checkClosure (P0 P1 P2 P3 : List ℚ) : Bool :=
  vecEquals (bezierEvaluate P0 P1 P2 P3 1) P3 COGNITIVE_THRESHOLDS.closureTolerance

/-! ## Evaluation records and normalization

`AdaEvaluation`, `clamp` and `normalizeEvaluation` from
`src/services/adaEngine.ts`. -/

/-- `clamp` (line 39): `Math.min(max, Math.max(min, value))`, defaults 0 and 1. -/
def clamp (value : ℚ) (lo : ℚ := 0) (hi : ℚ := 1) : ℚ := min hi (max lo value)

/-- A partial `AdaEvaluation` — the output shape of the JSON parse/repair
layer, where every field may be missing.  The `Number(...)`/`String(...)`
coercions of the source are identities here because the fields are typed, and
`.map(String)` on the lists likewise. -/
structure PartialEval where
  correctness : Option ℚ := none
  misconception : Option ℚ := none
  entity : Option String := none
  equation : Option String := none
  response : Option String := none
  synonyms : Option (List String) := none
  antonyms : Option (List String) := none
  action : Option String := none
deriving DecidableEq, Repr

/-- `AdaEvaluation` from `src/services/adaEngine.ts`. -/
structure AdaEvaluation where
  correctness : ℚ
  misconception : ℚ
  entity : String
  equation : String
  response : String
  synonyms : List String
  antonyms : List String
  action : String
deriving DecidableEq, Repr

/-- `query.slice(0, 48)`: the first 48 UTF-16 units of the query (characters
in this model). -/
def jsSlice48 (q : String) : String := String.mk (q.data.take 48)

/-- `normalizeEvaluation` from `src/services/adaEngine.ts` lines 109-118.
`query.slice(0, 48) || 'Signal'` is the `if`-expression on `jsSlice48`. -/
def normalizeEvaluation (result : PartialEval) (query : String) : AdaEvaluation :=
  { correctness := clamp (result.correctness.getD (65/100))
    misconception := clamp (result.misconception.getD (2/10))
    entity := result.entity.getD
      (if jsSlice48 query = "" then "Signal" else jsSlice48 query)
    equation := result.equation.getD
      ("meaning(\"" ++ query ++ "\") = contextual_resolution")
    response := result.response.getD
      "I resolved your query using the available context."
    synonyms := (result.synonyms.getD []).take 8
    antonyms := (result.antonyms.getD []).take 8
    action := result.action.getD "RESPOND" }

/-- The specification's field-by-field contract for `normalizeEvaluation`:
clamped numeric defaults, documented string placeholders, capped lists, and
no missing field in the output (output fields are total by type). -/
def NormalizeEvaluationSpec (p : PartialEval) (q : String) : Prop :=
  (normalizeEvaluation p q).correctness = clamp (p.correctness.getD (65/100)) ∧
  (normalizeEvaluation p q).misconception = clamp (p.misconception.getD (2/10)) ∧
  0 ≤ (normalizeEvaluation p q).correctness ∧
  (normalizeEvaluation p q).correctness ≤ 1 ∧
  0 ≤ (normalizeEvaluation p q).misconception ∧
  (normalizeEvaluation p q).misconception ≤ 1 ∧
  (p.correctness = none → (normalizeEvaluation p q).correctness = 65/100) ∧
  (p.misconception = none → (normalizeEvaluation p q).misconception = 2/10) ∧
  (p.entity = none → q = "" → (normalizeEvaluation p q).entity = "Signal") ∧
  (p.entity = none → q ≠ "" →
    (normalizeEvaluation p q).entity = jsSlice48 q) ∧
  (p.equation = none → (normalizeEvaluation p q).equation =
    "meaning(\"" ++ q ++ "\") = contextual_resolution") ∧
  (p.response = none → (normalizeEvaluation p q).response =
    "I resolved your query using the available context.") ∧
  (p.synonyms = none → (normalizeEvaluation p q).synonyms = []) ∧
  (p.antonyms = none → (normalizeEvaluation p q).antonyms = []) ∧
  (normalizeEvaluation p q).synonyms.length ≤ 8 ∧
  (normalizeEvaluation p q).antonyms.length ≤ 8 ∧
  (∀ syns, p.synonyms = some syns →
    (normalizeEvaluation p q).synonyms = syns.take 8) ∧
  (∀ ants, p.antonyms = some ants →
    (normalizeEvaluation p q).antonyms = ants.take 8) ∧
  (p.action = none → (normalizeEvaluation p q).action = "RESPOND")


/-! ## Misconception pattern table

`MISCONCEPTION_PATTERNS` and `estimateFallbackMisconception` from
`src/config.ts`.  Each regex is an alternation of literals (compiled to a
case-insensitive substring test over the expanded alternative set) except
the dated patterns, which need a four-digit test. -/

/-- Case-insensitive containment of any of the listed (lower-case) literals. -/
def containsAnyCI (lits : List String) (q : String) : Bool :=
  lits.any (fun l => containsCI l q)

/-- Scan every suffix of the character list for a local match. -/
def scanAnyPos (f : List Char → Bool) : List Char → Bool
  | [] => f []
  | c :: rest => f (c :: rest) || scanAnyPos f rest

/-- Four consecutive ASCII digits at the head of the list (`\d{4}`; a longer
digit run also matches, as in the regex). -/
def digits4At : List Char → Bool
  | a :: b :: c :: d :: _ => a.isDigit && b.isDigit && c.isDigit && d.isDigit
  | _ => false

/-- `/lit\d{4}/i`-style test: the literal followed by four digits occurs
somewhere in the query. -/
def containsWordDigits4 (w : String) (q : String) : Bool :=
  scanAnyPos (fun pos => ciPrefixAt w.data pos && digits4At (pos.drop w.data.length))
    (lowerOf q)

/-- The leadership nouns of the first misconception pattern. -/
def leaderNouns : List String :=
  ["president", "prime minister", "king", "queen", "emperor", "chancellor",
   "leader", "ruler", "ceo", "chairman", "director"]

/-- `/who is (?:the )?(?:current |present )?(?:president|...)/i`, expanded to
its finite alternative set. -/
def whoIsLeaderPattern (q : String) : Bool :=
  ["", "the "].any (fun a =>
    ["", "current ", "present "].any (fun b =>
      leaderNouns.any (fun w => containsCI ("who is " ++ a ++ b ++ w) q)))

/-- `MISCONCEPTION_PATTERNS` from `src/config.ts` (pattern, probability), in
source order.  `versus|vs\.?` is compiled to its alternatives; the optional
dot of `vs\.?` is subsumed by matching `"vs"`. -/
def MISCONCEPTION_PATTERNS : List ((String → Bool) × ℚ) :=
  [ (whoIsLeaderPattern, 40/100),
    (containsAnyCI ["capital of", "currency of", "language of"], 30/100),
    (containsAnyCI ["latest ", "current ", "newest ", "recent "], 40/100),
    (containsAnyCI ["is it true", "is it correct", "do people",
      "does everyone", "isn\x27t it"], 45/100),
    (containsAnyCI ["always", "never", "everyone knows", "obviously",
      "clearly", "of course"], 40/100),
    (containsAnyCI ["how many", "what percentage", "what number",
      "how much"], 30/100),
    (containsAnyCI ["cause", "causes", "caused by", "reason for",
      "why does", "why do", "why is"], 35/100),
    (containsAnyCI ["difference between", "compare", "versus", "vs"], 25/100),
    (fun q => containsWordDigits4 "in " q || containsWordDigits4 "since " q ||
      containsWordDigits4 "after " q || containsWordDigits4 "before " q ||
      containsAnyCI ["year", "decade", "century"] q, 35/100),
    (containsAnyCI ["still", "anymore", "used to", "no longer",
      "nowadays"], 35/100),
    (containsAnyCI ["healthy", "unhealthy", "safe", "dangerous", "toxic",
      "cure", "treatment"], 40/100),
    (containsAnyCI ["flat earth", "moon landing", "vaccine", "conspiracy",
      "myth", "debunk"], 50/100) ]

/-- `estimateFallbackMisconception` from `src/config.ts`: the maximum
matching probability, starting from `fallbackMisconceptionLow`. -/
def estimateFallbackMisconception (query : String) : ℚ :=
  MISCONCEPTION_PATTERNS.foldl
    (fun maxProb p => if p.1 query then max maxProb p.2 else maxProb)
    COGNITIVE_THRESHOLDS.fallbackMisconceptionLow

/-! ## AdaEngine: lexical coverage, rewriting, fallback entity -/

/-- `STOP_WORDS` from `src/services/adaEngine.ts`. -/
def STOP_WORDS : List String :=
  ["the", "and", "for", "with", "that", "this", "from", "into", "your",
   "about", "what", "when", "where", "which", "would", "could", "should",
   "there", "their", "have", "has", "been", "were", "will", "shall",
   "query", "mode", "standard", "eli5", "technical", "not", "only",
   "works", "think"]

/-- `LEXICAL_FALLBACKS` from `src/services/adaEngine.ts`: keyword to
(synonyms, antonyms). -/
def LEXICAL_FALLBACKS : List (String × (List String × List String)) :=
  [ ("simple", (["clear", "easy", "plain", "friendly"],
      ["complex", "technical", "dense", "complicated"])),
    ("explain", (["clarify", "describe", "break down", "unpack"],
      ["confuse", "obscure", "complicate", "muddy"])),
    ("deterministic", (["certain", "predictable", "fixed", "verifiable"],
      ["random", "probabilistic", "uncertain", "speculative"])),
    ("verification", (["validation", "proof", "confirmation", "audit"],
      ["guessing", "assumption", "speculation", "doubt"])),
    ("truth", (["fact", "accuracy", "reality", "validity"],
      ["falsehood", "error", "fiction", "inaccuracy"])),
    ("standard", (["default", "normal", "baseline", "regular"],
      ["exception", "custom", "advanced", "nonstandard"])),
    ("eli5", (["simple", "kid-friendly", "plain-language", "easy"],
      ["technical", "jargon-heavy", "advanced", "complex"])),
    ("technical", (["specialized", "precise", "formal", "detailed"],
      ["simple", "casual", "plain", "nontechnical"])) ]

/-- `extractLexicalKeywords`: lowercase, replace `[^a-z0-9\s-]` by a space,
split on whitespace (the `.map(trim)` of the source is a no-op after the
split), keep words longer than 2 that are not stop words. -/
def extractLexicalKeywords (q : String) : List String :=
  let replaced := (lowerOf q).map (fun c =>
    if decide ('a' ≤ c ∧ c ≤ 'z') || decide ('0' ≤ c ∧ c ≤ '9') || isJsWs c ||
        c = '-' then c else ' ')
  ((replaced.splitOnP isJsWs).map String.mk).filter
    (fun w => decide (2 < w.length) && !STOP_WORDS.contains w)

/-- Dedup keeping first occurrences (`[...new Set(xs)]`). -/
def dedupFirst (seen : List String) : List String → List String
  | [] => []
  | x :: xs =>
    if seen.contains x then dedupFirst seen xs
    else x :: dedupFirst (x :: seen) xs

/-- `unique` from `src/services/adaEngine.ts`: trim, drop empties, dedup. -/
def uniqueStrings (items : List String) : List String :=
  dedupFirst [] ((items.map jsTrim).filter (fun s => s != ""))

/-- `mergeLexicalCoverage` from `src/services/adaEngine.ts` lines 130-153. -/
def mergeLexicalCoverage (query : String) (synonyms antonyms : List String) :
    List String × List String :=
  let keywords := extractLexicalKeywords query
  let fallbacks := keywords.foldl (fun acc k =>
    match LEXICAL_FALLBACKS.find? (fun p => p.1 == k) with
    | some p => (acc.1 ++ p.2.1, acc.2 ++ p.2.2)
    | none => acc) ([], [])
  let fallbackSynonyms :=
    if containsCI "synonym" query && fallbacks.1.isEmpty then
      fallbacks.1 ++ ["equivalent", "alternate term", "parallel wording"]
    else fallbacks.1
  let fallbackAntonyms :=
    if (containsCI "antonym" query || containsCI "opposite" query ||
        containsCI "contrast" query) && fallbacks.2.isEmpty then
      fallbacks.2 ++ ["opposite", "inverse term", "counter meaning"]
    else fallbacks.2
  ((uniqueStrings (synonyms ++ fallbackSynonyms)).take 8,
   (uniqueStrings (antonyms ++ fallbackAntonyms)).take 8)

/-- One global case-insensitive literal replacement
(`text.replace(/lit/gi, repl)`): left-to-right, non-overlapping.  The fuel
starts above the list length, which the recursion never exhausts. -/
def replaceAllCI (lit repl : List Char) : List Char → Nat → List Char
  | _, 0 => []
  | [], _ => []
  | c :: rest, fuel + 1 =>
    if ciPrefixAt lit (c :: rest) then
      repl ++ replaceAllCI lit repl ((c :: rest).drop lit.length) fuel
    else c :: replaceAllCI lit repl rest fuel

def jsReplaceAllCI (lit repl : String) (s : String) : String :=
  String.mk (replaceAllCI lit.data repl.data s.data (s.data.length + 1))

/-- `eli5Rewrite` from `src/services/adaEngine.ts` lines 155-168. -/
def eli5Rewrite (text : String) (entity : String) : String :=
  let base := jsTrim text
  if base = "" then
    "Think of " ++ (if entity = "" then "this" else entity) ++
      " like a simple puzzle: each piece must fit the facts before we answer."
  else
    let rewritten := jsReplaceAllCI "deterministic" "certain" base
    let rewritten := jsReplaceAllCI "probabilistic" "guess-based" rewritten
    let rewritten := jsReplaceAllCI "epistemic" "truth-checking" rewritten
    let rewritten := jsReplaceAllCI "semantic" "meaning" rewritten
    let rewritten := jsReplaceAllCI "manifold" "map" rewritten
    let rewritten := jsReplaceAllCI "trajectory" "path" rewritten
    if rewritten.startsWith "Simple take:" then rewritten
    else "Simple take: " ++ rewritten

/-- The proof-label derivation of `AdaEngine.process` (lines 327-333). -/
def proofLabelOf (c f : ℚ) (status : ConstraintStatus) (state : CognitiveState)
    (action : String) (aiError : Option String) : ProofLabel :=
  if c ≥ COGNITIVE_THRESHOLDS.correctHigh ∧ status = .GREEN ∧ aiError = none then
    .VERIFIED
  else if f > COGNITIVE_THRESHOLDS.fogHigh ∨ state = .FOG ∨ action = "CLARIFY" then
    .NEEDS_DATA
  else .LIKELY

/-- `query.replace(/[?!.]+$/g, '')`: strip the trailing run of `? ! .`. -/
def stripTrailingPunct (q : String) : String :=
  String.mk ((q.data.reverse.dropWhile
    (fun c => c = '?' || c = '!' || c = '.')).reverse)

/-- The catch-branch entity of `AdaEngine.process`: the first five words
longer than two characters that are not stop words, `"Signal"` if none. -/
def fallbackEntityOf (query : String) : String :=
  let entityWords := (jsTokens (stripTrailingPunct query)).filter (fun w =>
    decide (2 < w.length) && !STOP_WORDS.contains (String.mk (lowerOf w)))
  let e := String.intercalate " " (entityWords.take 5)
  if e = "" then "Signal" else e

/-! ## AdaEngine.process -/

/-- The evaluation record and error flag of `AdaEngine.process`
(lines 244-275): on success the response is parsed (`parseJsonBlock`, else
the loose parser, else `{}`) and normalized; on a thrown delegated call the
deterministic fallback record is normalized and the message kept.
`parseJson` and `looseParse` model `parseJsonBlock` and
`parseLooselyStructuredResponse`, both `JSON.parse`/regex based. -/
def adaEvalData (parseJson looseParse : String → Option PartialEval)
    (query : String) (outcome : AiOutcome) : AdaEvaluation × Option String :=
  match outcome with
  | .ok resp =>
    let parsed := parseJson resp
    let looselyParsed :=
      match parsed with
      | some _ => none
      | none => looseParse resp
    (normalizeEvaluation ((parsed <|> looselyParsed).getD {}) query, none)
  | .error msg =>
    let fallbackMisconception := estimateFallbackMisconception query
    let fallbackEntity := fallbackEntityOf query
    (normalizeEvaluation
      { correctness := some COGNITIVE_THRESHOLDS.fallbackCorrectness
        misconception := some fallbackMisconception
        entity := some fallbackEntity
        equation := some ("interpret(\"" ++ fallbackEntity ++
          "\") = contextual_resolution")
        response := some ("I wasn\x27t able to reach the AI service to fully answer your query about \"" ++
          fallbackEntity ++
          "\". This is usually caused by temporary rate limits on the free providers. Your query has been processed with local evaluation. Please try again shortly for a complete AI-powered response.")
        action := some "RESPOND"
        synonyms := some []
        antonyms := some [] } query, some msg)

/-- `AdaEngine.process` from `src/services/adaEngine.ts` lines 199-362.
Injected parameters: `parseJson`/`looseParse` (the JSON repair layer),
`cleanText` (`cleanResponseText`, a markdown-regex pipeline), `toFixed2`
(JS `Number.toFixed(2)`), and `clock` (`Date.now()`-derived ledger
timestamps by step index).  The prompt string and session history feed only
the delegated call, which the `outcome` parameter models; the unused
`curvature` local of the source is omitted. -/
def adaProcess (parseJson looseParse : String → Option PartialEval)
    (cleanText : String → String) (toFixed2 : ℚ → String) (clock : Nat → Nat)
    (query : String) (complexity : Complexity) (outcome : AiOutcome) :
    SearchResult :=
  let ed := adaEvalData parseJson looseParse query outcome
  let evalData := ed.1
  let aiError := ed.2
  let c := evalData.correctness
  let m := evalData.misconception
  let k := max c m
  let f := 1 - k
  let state := cognitiveStateOf c m
  let ratio := ratioOf c m
  let status := constraintStatusOf c m
  let mechanics := WordMechanics.analyze
    (if evalData.entity = "" then "Signal" else evalData.entity)
  let P0 : List ℚ := [0, 0]
  let P3 : List ℚ := [1, 1]
  let P1 : List ℚ := [1/10 + m * (4/10), 1/2 + m * (8/10)]
  let P2 : List ℚ := [9/10 - m * (4/10), 1/2 - m * (2/10)]
  let samples := COGNITIVE_THRESHOLDS.trajectorySamples
  let trajectoryPoints := (List.range (samples + 1)).map
    (fun i => bezierEvaluate P0 P1 P2 P3 ((i : ℚ) / (samples : ℚ)))
  let lexical := mergeLexicalCoverage query evalData.synonyms evalData.antonyms
  let cleanedResponse := cleanText evalData.response
  let governedResponse :=
    if complexity = .ELI5 then eli5Rewrite cleanedResponse evalData.entity
    else cleanedResponse
  let proofLabel := proofLabelOf c f status state evalData.action aiError
  let ledger : List LedgerStep :=
    [ ⟨1, "Parse Query", "Input: \"" ++ query ++ "\" | Complexity: " ++
        complexity.toStr, clock 0⟩,
      ⟨2, "AI Evaluation",
        (match aiError with
         | some e => "Fallback: " ++ e
         | none => "Correctness: " ++ toFixed2 evalData.correctness ++
             ", Misconception: " ++ toFixed2 evalData.misconception),
        clock 1⟩,
      ⟨3, "Govern Constraints", "State: " ++ state.toStr ++ " | Status: " ++
        status.toStr ++ " | Ratio: " ++ toFixed2 ratio, clock 2⟩,
      ⟨4, "Map Glyphs", "Entity: \"" ++ evalData.entity ++ "\" | Profile: " ++
        mechanics.profile ++ " | Glyphs: " ++
        String.mk (mechanics.glyphs.map (fun g => g.char)), clock 3⟩,
      ⟨5, "Generate Response", "Proof: " ++ proofLabel.toStr ++
        " | Action: " ++ evalData.action, clock 4⟩,
      ⟨6, "Commit", "Governed response delivered. Trajectory closed: " ++
        (if checkClosure P0 P1 P2 P3 then "true" else "false"), clock 5⟩ ]
  { tier := 3
    method := "Ada Fluid-Manifold Governance"
    shape := evalData.equation
    entity := evalData.entity
    confidence := c
    details := "Epistemic Resolution: " ++ state.toStr ++ ". Complexity: " ++
      complexity.toStr ++ "."
    insight := governedResponse
    lexical := some ⟨lexical.1, lexical.2, evalData.equation⟩
    csv := ⟨c, m, f, k, state⟩
    constraint := ⟨status, ratio⟩
    action := evalData.action
    trajectoryPoints := trajectoryPoints
    isClosed := checkClosure P0 P1 P2 P3
    groundingSources := none
    proofLabel := some proofLabel
    ledger := some ledger
    glyphAnalysis := some mechanics
    error := aiError }

/-! ## Deterministic local fallback (src/unnamed/part_003)

`buildDeterministicAnswer`, `stripProviderNoise`, `resolveResponseText` and
the earlier `normalizeEvaluation` revision that routes responses through
them.  JS number-to-string formatting (float-based) is injected as the
`render` parameter. -/

/-- `deterministicCapitalMap` from `src/unnamed/part_003`. -/
def deterministicCapitalMap : List (String × String) :=
  [("texas", "Austin"), ("california", "Sacramento"),
   ("florida", "Tallahassee"), ("france", "Paris"), ("germany", "Berlin"),
   ("japan", "Tokyo"), ("canada", "Ottawa"), ("india", "New Delhi"),
   ("australia", "Canberra")]

/-- `/capital of ([a-z\s]+)/i` on the lower-cased query: at the leftmost
position, the literal followed by a nonempty greedy run of letters and
whitespace. -/
def capitalCapture (lower : List Char) : Option (List Char) :=
  scanPos (fun pos =>
    if ciPrefixAt "capital of ".data pos then
      let cap := (pos.drop "capital of ".data.length).takeWhile
        (fun c => decide ('a' ≤ c ∧ c ≤ 'z') || isJsWs c)
      if cap.isEmpty then none else some cap
    else none) lower

/-- `\w` (ASCII word character). -/
def isWordChar (c : Char) : Bool :=
  decide ('a' ≤ c ∧ c ≤ 'z') || decide ('A' ≤ c ∧ c ≤ 'Z') ||
  decide ('0' ≤ c ∧ c ≤ '9') || c = '_'

/-- `replace(/\b\w/g, c => c.toUpperCase())`: upper-case each word character
not preceded by a word character. -/
def capitalizeWordsAux : Bool → List Char → List Char
  | _, [] => []
  | prevWord, c :: rest =>
    (if isWordChar c && !prevWord then c.toUpper else c) ::
      capitalizeWordsAux (isWordChar c) rest

def capitalizeWords (s : String) : String :=
  String.mk (capitalizeWordsAux false s.data)

/-- Value of an ASCII digit run. -/
def digitsVal (ds : List Char) : Nat :=
  ds.foldl (fun acc d => acc * 10 + (d.toNat - 48)) 0

/-- The text of one `-?\d+(?:\.\d+)?` capture. -/
structure NumCapture where
  neg : Bool
  intDigits : List Char
  fracDigits : List Char
deriving DecidableEq, Repr

/-- `-?\d+(?:\.\d+)?` at the head of the list: the captured parts and the
remaining characters.  Greedy digit runs; a dot without following digits is
not consumed (the optional group fails).  Backtracking into shorter digit
runs can never help (the next character would be a digit, never an
operator), so the greedy parse is exact. -/
def parseNumberAt (l : List Char) : Option (NumCapture × List Char) :=
  let sgn := match l with
    | '-' :: rest => (true, rest)
    | _ => (false, l)
  let intDigits := sgn.2.takeWhile Char.isDigit
  if intDigits.isEmpty then none
  else
    let l2 := sgn.2.drop intDigits.length
    let frac := match l2 with
      | '.' :: rest =>
        let fd := rest.takeWhile Char.isDigit
        if fd.isEmpty then (([] : List Char), l2) else (fd, rest.drop fd.length)
      | _ => (([] : List Char), l2)
    some (⟨sgn.1, intDigits, frac.1⟩, frac.2)

/-- `Number(...)` on a captured number text. -/
def numValue (n : NumCapture) : ℚ :=
  let mag : ℚ := (digitsVal n.intDigits : ℚ) +
    (digitsVal n.fracDigits : ℚ) / ((10 : ℚ) ^ n.fracDigits.length)
  if n.neg then -mag else mag

def skipJsWs (l : List Char) : List Char := l.dropWhile isJsWs

/-- `/(-?\d+(?:\.\d+)?)\s*([+\-*\/])\s*(-?\d+(?:\.\d+)?)/` at one
position. -/
def arithMatchAt (pos : List Char) : Option (NumCapture × Char × NumCapture) :=
  match parseNumberAt pos with
  | none => none
  | some (a, r1) =>
    match skipJsWs r1 with
    | op :: r3 =>
      if op = '+' || op = '-' || op = '*' || op = '/' then
        match parseNumberAt (skipJsWs r3) with
        | some (b, _) => some (a, op, b)
        | none => none
      else none
    | [] => none

/-- Leftmost arithmetic match (`cleaned.match(...)`). -/
def arithMatch (s : List Char) : Option (NumCapture × Char × NumCapture) :=
  scanPos arithMatchAt s

/-- The operator evaluation of `buildDeterministicAnswer`:
`op === '+' ? a + b : ... : (b === 0 ? null : a / b)`. -/
def arithValue (a : ℚ) (op : Char) (b : ℚ) : Option ℚ :=
  if op = '+' then some (a + b)
  else if op = '-' then some (a - b)
  else if op = '*' then some (a * b)
  else if b = 0 then none
  else some (a / b)

/-- The capital-table branch of `buildDeterministicAnswer`: the
`replace(/[^a-z\s]/gi, '')` of the source is the identity on the captured
`[a-z\s]+` span, leaving the trim. -/
def capitalAnswerOf (q : String) : Option String :=
  let cleaned := jsTrim q
  match capitalCapture (lowerOf cleaned) with
  | some cap =>
    let place := jsTrim (String.mk cap)
    match deterministicCapitalMap.find? (fun p => p.1 == place) with
    | some pc =>
      some ("The capital of " ++ capitalizeWords place ++ " is " ++ pc.2 ++ ".")
    | none => none
  | none => none

/-- The `"I interpreted your request as..."` placeholder. -/
def interpretedPlaceholder (cleaned : String) : String :=
  "I interpreted your request as: \"" ++ cleaned ++
    "\". I can provide a fuller answer when upstream model output is available."

/-- `buildDeterministicAnswer` from `src/unnamed/part_003` lines 72-97.
`Number.isFinite` always holds in the rational model. -/
def buildDeterministicAnswer (render : ℚ → String) (query : String) : String :=
  let cleaned := jsTrim query
  match capitalAnswerOf query with
  | some s => s
  | none =>
    match arithMatch cleaned.data with
    | some (na, op, nb) =>
      let a := numValue na
      let b := numValue nb
      match arithValue a op b with
      | some v =>
        render a ++ " " ++ String.mk [op] ++ " " ++ render b ++ " = " ++
          render v ++ "."
      | none => interpretedPlaceholder cleaned
    | none => interpretedPlaceholder cleaned

/-- `/⚠️\s*\*\*IMPORTANT NOTICE\*\*[\s\S]*/i` starts here. -/
def noticeAt (pos : List Char) : Bool :=
  if ciPrefixAt "⚠️".data pos then
    ciPrefixAt "**important notice**".data
      (skipJsWs (pos.drop "⚠️".data.length))
  else false

/-- Truncate the list at the first position satisfying `p`
(`replace(/pat[\s\S]*/gi, '')`). -/
def truncateAtP (p : List Char → Bool) : List Char → List Char
  | [] => []
  | c :: rest => if p (c :: rest) then [] else c :: truncateAtP p rest

/-- `stripProviderNoise` from `src/unnamed/part_003` lines 100-105. -/
def stripProviderNoise (text : String) : String :=
  let l1 := truncateAtP noticeAt text.data
  let l2 := truncateAtP
    (fun pos => ciPrefixAt "pollinations legacy text api is being deprecated".data pos) l1
  jsTrim (String.mk l2)

/-- `resolveResponseText` from `src/unnamed/part_003` lines 107-117;
`response` is `none` when the value is not a string. -/
def resolveResponseText (render : ℚ → String) (response : Option String)
    (query : String) : String :=
  let raw := match response with
    | some s => stripProviderNoise s
    | none => ""
  if raw = "" then buildDeterministicAnswer render query
  else if containsCI "important notice" raw || containsCI "deprecated" raw ||
      containsCI "migrate to" raw then
    buildDeterministicAnswer render query
  else raw

/-- `normalizeEvaluation` from `src/unnamed/part_003` lines 119-128 (the
earlier `AdaEngine` revision): identical to the later revision except that
the response field goes through `resolveResponseText` — on every call path,
including successful parses. -/
def normalizeEvaluationP3 (render : ℚ → String) (result : PartialEval)
    (query : String) : AdaEvaluation :=
  { correctness := clamp (result.correctness.getD (65/100))
    misconception := clamp (result.misconception.getD (2/10))
    entity := result.entity.getD
      (if jsSlice48 query = "" then "Signal" else jsSlice48 query)
    equation := result.equation.getD
      ("meaning(\"" ++ query ++ "\") = contextual_resolution")
    response := resolveResponseText render result.response query
    synonyms := (result.synonyms.getD []).take 8
    antonyms := (result.antonyms.getD []).take 8
    action := result.action.getD "RESPOND" }

/-! ## Query cache

`QueryCache` from `src/services/aiClient.ts` (lines 31-63): a JS `Map` in
insertion order, with bounded capacity and TTL.  `Map.set` on an existing
key updates the value in place keeping its position; `Map.keys().next()`
yields the first (oldest-inserted) key; `Map.delete` removes a key.
`Date.now()` is the explicit `now` argument of each operation. -/

/-- One cache entry: `{value, timestamp}` (ms). -/
structure CacheEntry where
  value : String
  timestamp : Nat
deriving DecidableEq, Repr

/-- The cache state: entries in insertion order plus configuration. -/
structure QueryCache where
  entries : List (String × CacheEntry)
  maxSize : Nat
  ttlMs : Nat
deriving DecidableEq, Repr

/-- `Map.set` semantics: update in place, else append. -/
def mapSet : List (String × CacheEntry) → String → CacheEntry →
    List (String × CacheEntry)
  | [], k, e => [(k, e)]
  | (k', e') :: rest, k, e =>
    if k' = k then (k, e) :: rest else (k', e') :: mapSet rest k e

/-- `QueryCache.get(key)` at time `now`: miss on an absent key; lazily
delete and miss on an entry older than the TTL; hit otherwise.  Returns the
looked-up value and the possibly changed cache. -/
def QueryCache.get (c : QueryCache) (key : String) (now : Nat) :
    Option String × QueryCache :=
  match c.entries.find? (fun p => p.1 == key) with
  | none => (none, c)
  | some p =>
    if now - p.2.timestamp > c.ttlMs then
      (none, { c with entries := c.entries.filter (fun p => !(p.1 == key)) })
    else (some p.2.value, c)

/-- `QueryCache.set(key, value)` at time `now`: delete the oldest-inserted
key when at capacity, then `Map.set`. -/
def QueryCache.set (c : QueryCache) (key value : String) (now : Nat) :
    QueryCache :=
  let c1 :=
    if c.entries.length ≥ c.maxSize then
      match c.entries with
      | [] => c
      | _ :: rest => { c with entries := rest }
    else c
  { c1 with entries := mapSet c1.entries key ⟨value, now⟩ }

/-- Fill a cache by setting each (key, value) pair at time `t0`. -/
def fillCache (c : QueryCache) (kvs : List (String × String)) (t0 : Nat) :
    QueryCache :=
  kvs.foldl (fun c kv => c.set kv.1 kv.2 t0) c

/-- Run a sequence of `get` operations (key, time), keeping the final
cache. -/
def applyGets (c : QueryCache) (gets : List (String × Nat)) : QueryCache :=
  gets.foldl (fun c g => (c.get g.1 g.2).2) c

end AdanAgent

namespace AdanAgent

/-! ## Theorems -/

/-- C1: the governance calculus is a pure function of `c` and `m`; with
`k = max(c,m)` and `f = 1 - k`, the cognitive state is MISCONCEPTION iff
`m > c ∧ m > 0.4`, else FOG iff `f > 0.5`, else CORRECT iff `c > 0.7`, else
PARTIAL, evaluated in exactly that priority order; and with
`ground = max(0.01, 1-m)`, `ratio = c/ground`, the constraint status is
FINFR iff `ground ≤ 0.05`, else RED iff `ratio > 1.2`, else YELLOW iff
`ratio ≥ 0.8`, else GREEN, FINFR checked first. Proved for all rationals,
hence in particular for all `c, m ∈ [0,1]`. -/
theorem governance_calculus_priority_order (c m : ℚ) : GovernanceCalculusSpec c m := by
  unfold GovernanceCalculusSpec cognitiveStateOf constraintStatusOf COGNITIVE_THRESHOLDS
  refine ⟨?_, ?_, ?_, ?_, ?_, ?_, ?_, ?_⟩ <;> (try constructor) <;> (simp only []; split_ifs <;> simp_all)

/-- Every character between `'A'` and `'Z'` has a glyph-table entry, and that
entry's physics is never `UNKNOWN`. -/
theorem glyphDB_some_of_upper (c : Char) (h1 : 'A' ≤ c) (h2 : c ≤ 'Z') :
    ∃ g, GLYPH_DB c = some g ∧ g.physics ≠ .UNKNOWN := by
  have hn1 : 65 ≤ c.toNat := by rw [Char.le_def] at h1; exact h1
  have hn2 : c.toNat ≤ 90 := by rw [Char.le_def] at h2; exact h2
  have hofn : Char.ofNat c.toNat = c := Char.ofNat_toNat c
  interval_cases h : c.toNat <;> (rw [← hofn]; exact ⟨_, rfl, by decide⟩)

/-- Bumping a stat for a known physics grows the stat total by one. -/
theorem statsSum_bumpStat (s : MechanicalStats) (p : PhysicalProperty)
    (hp : p ≠ .UNKNOWN) : statsSum (bumpStat s p) = statsSum s + 1 := by
  cases p <;> first
    | exact absurd rfl hp
    | (simp [bumpStat, statsSum]; omega)

/-- Folding the stat counters over glyphs with known physics counts them. -/
theorem statsSum_foldl (gs : List Glyph) (init : MechanicalStats)
    (h : ∀ g ∈ gs, g.physics ≠ .UNKNOWN) :
    statsSum (gs.foldl (fun s g => bumpStat s g.physics) init) =
      statsSum init + gs.length := by
  induction gs generalizing init with
  | nil => simp
  | cons g gs ih =>
    simp only [List.foldl_cons, List.length_cons]
    rw [ih _ (fun g' hg' => h g' (List.mem_cons_of_mem _ hg'))]
    rw [statsSum_bumpStat _ _ (h g (List.mem_cons_self _ _))]
    omega

/-- C10: `WordMechanics.analyze` is total, every glyph it produces has a
physics different from UNKNOWN (the synthetic UNKNOWN-glyph branch is
unreachable after upper-casing and stripping non-A-Z characters), and the six
mechanical stat counters sum to exactly the number of glyphs produced. -/
theorem word_mechanics_glyphs_known (word : String) :
    (∀ g ∈ (WordMechanics.analyze word).glyphs, g.physics ≠ PhysicalProperty.UNKNOWN) ∧
    statsSum (WordMechanics.analyze word).stats =
      (WordMechanics.analyze word).glyphs.length := by
  have hg : ∀ g ∈ (WordMechanics.analyze word).glyphs,
      g.physics ≠ PhysicalProperty.UNKNOWN := by
    intro g hgmem
    simp only [WordMechanics.analyze, List.mem_map] at hgmem
    obtain ⟨c, hc, rfl⟩ := hgmem
    have hbound : 'A' ≤ c ∧ c ≤ 'Z' := by
      simp only [cleanWordOf, List.mem_filter] at hc
      exact of_decide_eq_true hc.2
    obtain ⟨g', hsome, hphys⟩ := glyphDB_some_of_upper c hbound.1 hbound.2
    rw [hsome]
    simpa using hphys
  refine ⟨hg, ?_⟩
  have hg' : ∀ g ∈ (cleanWordOf word).map
      (fun c => (GLYPH_DB c).getD ⟨c, "UNK", .UNKNOWN, "Unknown"⟩),
      g.physics ≠ PhysicalProperty.UNKNOWN := by
    intro g hgmem
    exact hg g (by simpa [WordMechanics.analyze] using hgmem)
  simp only [WordMechanics.analyze]
  rw [statsSum_foldl _ _ hg']
  simp [statsSum, emptyStats]


/-- The score of one `checkCluster` step is the max of the running score and
the cluster's overlap. -/
theorem checkCluster_score (q : String) (b : BestMatch) (name : String)
    (shape : QueryShape) :
    (checkCluster q b name shape).score = max b.score (overlapCount q name) := by
  unfold checkCluster
  split_ifs with h
  · show overlapCount q name = _
    omega
  · omega

/-- The score of the cluster fold is the running max of the overlaps. -/
theorem foldBest_score (q : String) (l : List (String × QueryShape))
    (b : BestMatch) :
    (l.foldl (fun b ns => checkCluster q b ns.1 ns.2) b).score =
      (l.map (fun ns => overlapCount q ns.1)).foldl max b.score := by
  induction l generalizing b with
  | nil => rfl
  | cons x xs ih =>
    simp only [List.foldl_cons, List.map_cons]
    rw [ih]
    congr 1
    exact checkCluster_score q b x.1 x.2

/-- The cluster fold never decreases the score. -/
theorem foldBest_score_mono (q : String) (l : List (String × QueryShape))
    (b : BestMatch) :
    b.score ≤ (l.foldl (fun b ns => checkCluster q b ns.1 ns.2) b).score := by
  induction l generalizing b with
  | nil => exact le_refl _
  | cons x xs ih =>
    simp only [List.foldl_cons]
    refine le_trans ?_ (ih (checkCluster q b x.1 x.2))
    rw [checkCluster_score]
    omega

/-- If the cluster fold does not increase the score, it changes nothing
(updates happen only on a strict increase). -/
theorem foldBest_id_of_score_eq (q : String) (l : List (String × QueryShape))
    (b : BestMatch)
    (h : (l.foldl (fun b ns => checkCluster q b ns.1 ns.2) b).score = b.score) :
    l.foldl (fun b ns => checkCluster q b ns.1 ns.2) b = b := by
  induction l generalizing b with
  | nil => rfl
  | cons x xs ih =>
    simp only [List.foldl_cons] at h ⊢
    have hmono := foldBest_score_mono q xs (checkCluster q b x.1 x.2)
    have hsc := checkCluster_score q b x.1 x.2
    have hb : checkCluster q b x.1 x.2 = b := by
      by_contra hne
      have : overlapCount q x.1 > b.score := by
        simp only [checkCluster] at hne
        by_contra hle
        exact hne (if_neg hle)
      simp only [checkCluster, if_pos this] at h hmono
      omega
    rw [hb] at h ⊢
    exact ih b h

/-- When the cluster fold strictly increases the score, the final best is the
first cluster in check order achieving the final score, found by `find?`. -/
theorem foldBest_winner (q : String) (l : List (String × QueryShape))
    (b : BestMatch)
    (h : b.score < (l.foldl (fun b ns => checkCluster q b ns.1 ns.2) b).score) :
    ∃ w ∈ l,
      l.find? (fun ns => overlapCount q ns.1
          == (l.foldl (fun b ns => checkCluster q b ns.1 ns.2) b).score) = some w ∧
      l.foldl (fun b ns => checkCluster q b ns.1 ns.2) b =
        ⟨w.2, overlapCount q w.1, w.1⟩ := by
  induction l generalizing b with
  | nil => simp only [List.foldl_nil] at h; omega
  | cons x xs ih =>
    simp only [List.foldl_cons] at h ⊢
    by_cases hcmp : (checkCluster q b x.1 x.2).score <
        (xs.foldl (fun b ns => checkCluster q b ns.1 ns.2)
          (checkCluster q b x.1 x.2)).score
    · obtain ⟨w, hwmem, hfind, heq⟩ := ih (checkCluster q b x.1 x.2) hcmp
      refine ⟨w, List.mem_cons_of_mem _ hwmem, ?_, heq⟩
      rw [List.find?_cons_of_neg, hfind]
      have hxle : overlapCount q x.1 ≤ (checkCluster q b x.1 x.2).score := by
        rw [checkCluster_score]; omega
      simp only [beq_iff_eq]
      omega
    · have hmono := foldBest_score_mono q xs (checkCluster q b x.1 x.2)
      have heqsc : (xs.foldl (fun b ns => checkCluster q b ns.1 ns.2)
          (checkCluster q b x.1 x.2)).score = (checkCluster q b x.1 x.2).score := by
        omega
      have hid := foldBest_id_of_score_eq q xs _ heqsc
      have hgt : overlapCount q x.1 > b.score := by
        have := checkCluster_score q b x.1 x.2
        omega
      have hcc : checkCluster q b x.1 x.2 = ⟨x.2, overlapCount q x.1, x.1⟩ := by
        simp only [checkCluster, if_pos hgt]
      refine ⟨x, List.mem_cons_self _ _, ?_, ?_⟩
      · rw [List.find?_cons_of_pos]
        simp only [beq_iff_eq]
        rw [hid, hcc]
      · rw [hid, hcc]

/-- C5: Tier-2 cluster selection uses strict `>`, so the winner has the
strictly highest overlap count, ties keep the earliest-checked cluster, and
Tier 2 fires only when the winning overlap is at least 1, otherwise it
returns null and process falls through to Tier 3.  `find?` returns the first
cluster in check order whose overlap equals the maximum. -/
theorem tier2_strict_tiebreak (q : String) (outcome : AiOutcome) :
    (tier2Best q).score = maxOverlap q ∧
    (1 ≤ maxOverlap q →
      clusterOrder.find? (fun ns => overlapCount q ns.1 == maxOverlap q)
        = some ((tier2Best q).clusterName, (tier2Best q).shape) ∧
      overlapCount q (tier2Best q).clusterName = maxOverlap q) ∧
    (matchTier2 q = none ↔ maxOverlap q = 0) ∧
    (matchTier1 q = none → matchTier2 q = none →
      kinematicProcess q outcome = matchTier3 q outcome) := by
  have hscore : (tier2Best q).score = maxOverlap q := by
    unfold tier2Best maxOverlap
    exact foldBest_score q clusterOrder ⟨.UNKNOWN, 0, ""⟩
  refine ⟨hscore, ?_, ?_, ?_⟩
  · intro hge
    have h0 : (⟨QueryShape.UNKNOWN, 0, ""⟩ : BestMatch).score <
        (clusterOrder.foldl (fun b ns => checkCluster q b ns.1 ns.2)
          ⟨.UNKNOWN, 0, ""⟩).score := by
      show 0 < (tier2Best q).score
      omega
    obtain ⟨w, _, hfind, heq⟩ := foldBest_winner q clusterOrder ⟨.UNKNOWN, 0, ""⟩ h0
    have hb : tier2Best q = ⟨w.2, overlapCount q w.1, w.1⟩ := heq
    constructor
    · have : ((tier2Best q).clusterName, (tier2Best q).shape) = w := by
        rw [hb]
      rw [this]
      rw [← hscore]
      exact hfind
    · rw [hb]
      simp only
      rw [← hscore, hb]
  · constructor
    · intro hnone
      by_contra hne
      have hge : (tier2Best q).score ≥ 1 := by omega
      simp only [matchTier2, if_pos hge] at hnone
      exact Option.noConfusion hnone
    · intro hz
      simp only [matchTier2]
      rw [if_neg]
      omega
  · intro h1 h2
    simp only [kinematicProcess, h1, h2]

/-- C3: for every query matched by some Tier-1 `(regex, shape)` pair, the
resolver returns the record with tier 1, confidence 1.0, GREEN constraint,
CORRECT cognitive state, trajectory `[[0,0],[1,1]]`, `isClosed`, and entity
equal to the first matching pattern's capture group trimmed and stripped of
trailing `'?'` characters; the first pattern in the fixed list wins. -/
theorem tier1_match_fields (q : String) (outcome : AiOutcome)
    (shape : QueryShape) (cap : String)
    (h : tier1FirstMatch q = some (shape, cap)) :
    matchTier1 q = some (tier1Result shape cap) ∧
    kinematicProcess q outcome = tier1Result shape cap ∧
    (tier1Result shape cap).tier = 1 ∧
    (tier1Result shape cap).confidence = 1 ∧
    (tier1Result shape cap).constraint.status = ConstraintStatus.GREEN ∧
    (tier1Result shape cap).csv.state = CognitiveState.CORRECT ∧
    (tier1Result shape cap).trajectoryPoints = [[0, 0], [1, 1]] ∧
    (tier1Result shape cap).isClosed = true ∧
    (tier1Result shape cap).entity = jsTrim (stripTrailingQMarks (jsTrim cap)) := by
  have hm : matchTier1 q = some (tier1Result shape cap) := by
    simp only [matchTier1, h, Option.map_some']
  refine ⟨hm, ?_, rfl, rfl, rfl, rfl, rfl, rfl, rfl⟩
  simp only [kinematicProcess, hm]

/-- Witness for C3 at the spec's own scenario `"capital of Texas?"`. -/
theorem tier1_match_fields_witness :
    tier1FirstMatch "capital of Texas?" = some (QueryShape.CAPITAL_OF, "Texas?") ∧
    matchTier1 "capital of Texas?" = some (tier1Result .CAPITAL_OF "Texas?") ∧
    (tier1Result QueryShape.CAPITAL_OF "Texas?").entity = "Texas" := by
  have h : tier1FirstMatch "capital of Texas?"
      = some (QueryShape.CAPITAL_OF, "Texas?") := by decide
  exact ⟨h,
    (tier1_match_fields "capital of Texas?" (Except.error "e") _ _ h).1,
    by decide⟩

/-- C4: when no Tier-1 pattern matches and at least one cluster keyword
overlaps the tokenized query, the resolver returns tier 2 with confidence
`min(0.95, 0.7 + 0.1*overlap)` and entity the space-join of the original
whitespace-split tokens excluding every token normalizing into the winning
cluster's keyword set, the noise-word set, or the empty string; `"Unknown"`
when no token survives. -/
theorem tier2_match_fields (q : String) (outcome : AiOutcome)
    (h1 : matchTier1 q = none) (h2 : 1 ≤ (tier2Best q).score) :
    kinematicProcess q outcome = tier2Result q (tier2Best q) ∧
    matchTier2 q = some (tier2Result q (tier2Best q)) ∧
    (tier2Result q (tier2Best q)).tier = 2 ∧
    (tier2Result q (tier2Best q)).confidence
      = min (95/100) (7/10 + ((tier2Best q).score : ℚ) * (1/10)) ∧
    (tier2Result q (tier2Best q)).entity =
      (let toks := (jsTokens q).filter (fun token =>
        !(clusterKeywords (tier2Best q).clusterName).contains (normalizeToken token) &&
        !NOISE_WORDS.contains (normalizeToken token) &&
        decide (0 < (normalizeToken token).length))
      if String.intercalate " " toks = "" then "Unknown"
      else String.intercalate " " toks) := by
  have hm : matchTier2 q = some (tier2Result q (tier2Best q)) := by
    simp only [matchTier2, if_pos h2]
  refine ⟨?_, hm, rfl, rfl, rfl⟩
  simp only [kinematicProcess, h1, hm]

/-- Witness for C4 at the spec's own scenario `"who is the king of Spain"`:
Tier 1 fails, the LEADER cluster fires with overlap 1, entity `"Spain"`,
confidence 0.8. -/
theorem tier2_match_fields_witness :
    matchTier1 "who is the king of Spain" = none ∧
    1 ≤ (tier2Best "who is the king of Spain").score ∧
    kinematicProcess "who is the king of Spain" (Except.error "e")
      = tier2Result "who is the king of Spain" (tier2Best "who is the king of Spain") ∧
    (tier2Result "who is the king of Spain"
      (tier2Best "who is the king of Spain")).entity = "Spain" ∧
    (tier2Result "who is the king of Spain"
      (tier2Best "who is the king of Spain")).confidence = 8/10 := by
  have h1 : matchTier1 "who is the king of Spain" = none := by decide
  have h2 : 1 ≤ (tier2Best "who is the king of Spain").score := by decide
  refine ⟨h1, h2,
    (tier2_match_fields "who is the king of Spain" (Except.error "e") h1 h2).1,
    by decide, ?_⟩
  have hc := (tier2_match_fields "who is the king of Spain"
    (Except.error "e") h1 h2).2.2.2.1
  have hs : (tier2Best "who is the king of Spain").score = 1 := by decide
  rw [hc, hs]
  push_cast
  rw [min_def]
  norm_num

/-- Witness for C5 on a tie: in `"king wrote"` both LEADER and COMPOSER
overlap once; the earlier-checked LEADER cluster wins. -/
theorem tier2_strict_tiebreak_witness :
    1 ≤ maxOverlap "king wrote" ∧
    clusterOrder.find? (fun ns => overlapCount "king wrote" ns.1
      == maxOverlap "king wrote") = some ("LEADER", QueryShape.LEADER_OF) ∧
    (tier2Best "king wrote").clusterName = "LEADER" ∧
    overlapCount "king wrote" "COMPOSER" = maxOverlap "king wrote" := by
  have h := (tier2_strict_tiebreak "king wrote" (Except.error "e")).2.1 (by decide)
  have hname : (tier2Best "king wrote").clusterName = "LEADER" := by decide
  have hshape : (tier2Best "king wrote").shape = QueryShape.LEADER_OF := by decide
  refine ⟨by decide, ?_, hname, by decide⟩
  rw [h.1, hname, hshape]


/-- At `t = 1` the Bezier blending weights reduce to `(0, 0, 0, 1)`. -/
theorem bezierEvaluate_one (P0 P1 P2 P3 : List ℚ) :
    bezierEvaluate P0 P1 P2 P3 1 =
      vecAdd (vecAdd (vecScale P0 0) (vecScale P1 0))
        (vecAdd (vecScale P2 0) (vecScale P3 1)) := by
  simp only [bezierEvaluate]
  norm_num

/-- For control points of equal dimension, evaluating at `t = 1` gives
exactly `P3`. -/
theorem bezier_eval_one_eq_P3 (P0 P1 P2 P3 : List ℚ)
    (h1 : P1.length = P0.length) (h2 : P2.length = P0.length)
    (h3 : P3.length = P0.length) :
    bezierEvaluate P0 P1 P2 P3 1 = P3 := by
  rw [bezierEvaluate_one]
  induction P0 generalizing P1 P2 P3 with
  | nil =>
    have h3' : P3 = [] := List.length_eq_zero.mp (by simpa using h3)
    subst h3'
    rfl
  | cons x xs ih =>
    cases P1 with
    | nil => simp at h1
    | cons y ys =>
      cases P2 with
      | nil => simp at h2
      | cons z zs =>
        cases P3 with
        | nil => simp at h3
        | cons w ws =>
          simp only [vecScale, List.map_cons, vecAdd, List.cons.injEq]
          constructor
          · ring
          · have := ih ys zs ws (by simpa using h1) (by simpa using h2)
              (by simpa using h3)
            simpa [vecScale] using this

/-- A vector is within any positive tolerance of itself. -/
theorem vecEquals_self (v : List ℚ) (tol : ℚ) (htol : 0 < tol) :
    vecEquals v v tol = true := by
  induction v with
  | nil => rfl
  | cons x xs ih =>
    simp only [vecEquals, Bool.and_eq_true, decide_eq_true_eq]
    exact ⟨by simpa using htol, ih⟩

/-- C9: for every choice of control points of equal dimension,
`BezierPrimitive.checkClosure()` returns true, because `evaluate(1.0)` with
the cubic Bezier blending weights equals `P3` exactly and hence lies within
the closure tolerance of `P3`. -/
theorem bezier_check_closure (P0 P1 P2 P3 : List ℚ)
    (h1 : P1.length = P0.length) (h2 : P2.length = P0.length)
    (h3 : P3.length = P0.length) :
    bezierEvaluate P0 P1 P2 P3 1 = P3 ∧ checkClosure P0 P1 P2 P3 = true := by
  have he := bezier_eval_one_eq_P3 P0 P1 P2 P3 h1 h2 h3
  refine ⟨he, ?_⟩
  unfold checkClosure
  rw [he]
  exact vecEquals_self P3 _ (by norm_num [COGNITIVE_THRESHOLDS])

/-- Witness for C9 at concrete two-dimensional control points. -/
theorem bezier_check_closure_witness :
    ([(1:ℚ), 2].length = [(0:ℚ), 0].length) ∧
    ([(3:ℚ), 4].length = [(0:ℚ), 0].length) ∧
    ([(1:ℚ), 1].length = [(0:ℚ), 0].length) ∧
    bezierEvaluate [0, 0] [1, 2] [3, 4] [1, 1] 1 = [1, 1] ∧
    checkClosure [0, 0] [1, 2] [3, 4] [1, 1] = true := by
  have h := bezier_check_closure [0, 0] [1, 2] [3, 4] [1, 1] rfl rfl rfl
  exact ⟨rfl, rfl, rfl, h.1, h.2⟩


/-- Taking 48 characters of a non-empty string is non-empty. -/
theorem take48_ne_empty (q : String) (hq : q ≠ "") : jsSlice48 q ≠ "" := by
  cases q with
  | mk data =>
    intro h
    have hd : data.take 48 = [] := congrArg String.data h
    rcases List.take_eq_nil_iff.mp hd with h48 | hnil
    · omega
    · exact hq (by rw [hnil])

/-- C6: `normalizeEvaluation` returns a record with no missing field:
correctness and misconception are clamped to [0,1] with defaults 0.65 and
0.2, entity defaults to the first 48 characters of the query (or "Signal"
when the query is empty), equation and response default to the documented
placeholders, synonyms and antonyms default to [] and are capped at 8
entries, and action defaults to "RESPOND". -/
theorem normalize_evaluation_defaults (p : PartialEval) (q : String) :
    NormalizeEvaluationSpec p q := by
  unfold NormalizeEvaluationSpec
  refine ⟨rfl, rfl, ?_, ?_, ?_, ?_, ?_, ?_, ?_, ?_, ?_, ?_, ?_, ?_, ?_, ?_,
    ?_, ?_, ?_⟩
  · exact le_min (by norm_num) (le_max_left 0 _)
  · exact min_le_left _ _
  · exact le_min (by norm_num) (le_max_left 0 _)
  · exact min_le_left _ _
  · intro h
    simp only [normalizeEvaluation, h, Option.getD_none, clamp]
    norm_num
  · intro h
    simp only [normalizeEvaluation, h, Option.getD_none, clamp]
    norm_num
  · intro he hq
    subst hq
    have : jsSlice48 "" = "" := rfl
    simp [normalizeEvaluation, he, this]
  · intro he hq
    simp only [normalizeEvaluation, he, Option.getD_none]
    rw [if_neg (take48_ne_empty q hq)]
  · intro h
    simp [normalizeEvaluation, h]
  · intro h
    simp [normalizeEvaluation, h]
  · intro h
    simp [normalizeEvaluation, h]
  · intro h
    simp [normalizeEvaluation, h]
  · simp only [normalizeEvaluation, List.length_take]
    omega
  · simp only [normalizeEvaluation, List.length_take]
    omega
  · intro syns h
    simp [normalizeEvaluation, h]
  · intro ants h
    simp [normalizeEvaluation, h]
  · intro h
    simp [normalizeEvaluation, h]

/-- Witness for C6 at the spec's own example `normalizeEvaluation({}, "test")`. -/
theorem normalize_evaluation_defaults_witness :
    NormalizeEvaluationSpec {} "test" ∧
    (normalizeEvaluation {} "test").entity = "test" ∧
    (normalizeEvaluation {} "test").action = "RESPOND" ∧
    (normalizeEvaluation {} "test").equation
      = "meaning(\"test\") = contextual_resolution" :=
  ⟨normalize_evaluation_defaults {} "test", by decide, by decide, by decide⟩


/-- The fold of `max` over probabilities stays between its start and 1. -/
theorem foldl_max_prob_bounds (l : List ((String → Bool) × ℚ)) (q : String)
    (a : ℚ) (ha0 : 0 ≤ a) (ha1 : a ≤ 1) (hl : ∀ p ∈ l, p.2 ≤ 1) :
    a ≤ l.foldl (fun mx p => if p.1 q then max mx p.2 else mx) a ∧
    l.foldl (fun mx p => if p.1 q then max mx p.2 else mx) a ≤ 1 := by
  induction l generalizing a with
  | nil => exact ⟨le_refl a, ha1⟩
  | cons x xs ih =>
    simp only [List.foldl_cons]
    by_cases hx : x.1 q
    · rw [if_pos hx]
      have hx2 := hl x (List.mem_cons_self _ _)
      have hrec := ih (max a x.2) (le_trans ha0 (le_max_left _ _))
        (max_le ha1 hx2) (fun p hp => hl p (List.mem_cons_of_mem _ hp))
      exact ⟨le_trans (le_max_left _ _) hrec.1, hrec.2⟩
    · rw [if_neg hx]
      exact ih a ha0 ha1 (fun p hp => hl p (List.mem_cons_of_mem _ hp))

/-- The fallback misconception estimate is between the 0.15 floor and 1. -/
theorem estimateFallback_bounds (q : String) :
    3/20 ≤ estimateFallbackMisconception q ∧
    estimateFallbackMisconception q ≤ 1 := by
  have hl : ∀ p ∈ MISCONCEPTION_PATTERNS, p.2 ≤ (1 : ℚ) := by
    intro p hp
    simp only [MISCONCEPTION_PATTERNS, List.mem_cons, List.not_mem_nil,
      or_false] at hp
    rcases hp with rfl | rfl | rfl | rfl | rfl | rfl | rfl | rfl | rfl | rfl |
      rfl | rfl <;> norm_num
  have h := foldl_max_prob_bounds MISCONCEPTION_PATTERNS q
    COGNITIVE_THRESHOLDS.fallbackMisconceptionLow (by norm_num [COGNITIVE_THRESHOLDS])
    (by norm_num [COGNITIVE_THRESHOLDS]) hl
  unfold estimateFallbackMisconception
  constructor
  · exact le_trans (by norm_num [COGNITIVE_THRESHOLDS]) h.1
  · exact h.2

/-- C2: `AdaEngine.process` and the Tier-3 resolver are total for every
delegated-call behavior and never propagate an exception; when the delegated
call throws, the result carries the failure message in `error` and degraded
governance values — correctness fixed at the 0.62 fallback constant and
misconception estimated from the pattern table for `AdaEngine.process`;
confidence 0, FOG, RED and ABSTAIN for the Tier-3 resolver — while on
success `error` is absent. -/
theorem process_error_handling
    (parseJson looseParse : String → Option PartialEval)
    (cleanText : String → String) (toFixed2 : ℚ → String) (clock : Nat → Nat)
    (query msg raw : String) (complexity : Complexity) :
    (adaProcess parseJson looseParse cleanText toFixed2 clock query complexity
        (.error msg)).error = some msg ∧
    (adaProcess parseJson looseParse cleanText toFixed2 clock query complexity
        (.error msg)).csv.c = 62/100 ∧
    (adaProcess parseJson looseParse cleanText toFixed2 clock query complexity
        (.error msg)).confidence = 62/100 ∧
    (adaProcess parseJson looseParse cleanText toFixed2 clock query complexity
        (.error msg)).csv.m = estimateFallbackMisconception query ∧
    (adaProcess parseJson looseParse cleanText toFixed2 clock query complexity
        (.error msg)).entity = fallbackEntityOf query ∧
    (adaProcess parseJson looseParse cleanText toFixed2 clock query complexity
        (.ok raw)).error = none ∧
    (matchTier3 query (.error msg)).confidence = 0 ∧
    (matchTier3 query (.error msg)).csv.state = CognitiveState.FOG ∧
    (matchTier3 query (.error msg)).constraint.status = ConstraintStatus.RED ∧
    (matchTier3 query (.error msg)).action = "ABSTAIN" ∧
    (matchTier3 query (.error msg)).error = some msg ∧
    (matchTier3 query (.ok raw)).error = none := by
  have hclamp62 : clamp ((62 : ℚ)/100) = 62/100 := by
    unfold clamp
    rw [max_eq_right (by norm_num), min_eq_right (by norm_num)]
  have hbounds := estimateFallback_bounds query
  have hclampm : clamp (estimateFallbackMisconception query)
      = estimateFallbackMisconception query := by
    unfold clamp
    rw [max_eq_right (le_trans (by norm_num) hbounds.1),
      min_eq_right hbounds.2]
  have hc : (adaProcess parseJson looseParse cleanText toFixed2 clock query
      complexity (.error msg)).csv.c = 62/100 := by
    show clamp ((some COGNITIVE_THRESHOLDS.fallbackCorrectness).getD _) = 62/100
    rw [Option.getD_some]
    exact hclamp62
  have hm : (adaProcess parseJson looseParse cleanText toFixed2 clock query
      complexity (.error msg)).csv.m = estimateFallbackMisconception query := by
    show clamp ((some (estimateFallbackMisconception query)).getD _) = _
    rw [Option.getD_some]
    exact hclampm
  exact ⟨rfl, hc, hc, hm, rfl, rfl, rfl, rfl, rfl, rfl, rfl, rfl⟩


/-- C7 counterexample: with no thrown delegated call — a successfully parsed
evaluation record whose response merely mentions "deprecated" — the part_003
normalization routes through `resolveResponseText` and emits the
deterministic local fallback answer.  The fallback is therefore not used
only when the delegated call throws. -/
theorem deterministic_fallback_on_success :
    (normalizeEvaluationP3 (fun _ => "")
        { response := some "Service deprecated" } "capital of texas").response
      = buildDeterministicAnswer (fun _ => "") "capital of texas" ∧
    buildDeterministicAnswer (fun _ => "") "capital of texas"
      = "The capital of Texas is Austin." := by
  exact ⟨by decide, by decide⟩

/-- C7 amended: the deterministic local fallback is produced by
`resolveResponseText`, which `normalizeEvaluation` (part_003) applies on
every path — when the delegated call throws and equally on success whenever
the response is missing, empty after noise stripping, or mentions a
provider-deprecation notice.  The fallback itself returns the fixed-table
capital for `capital of <place>` queries with a known place, evaluates
`<number> <op> <number>` for `+ - * /`, yields no deterministic arithmetic
answer when the operator is division and the divisor is zero (falling
through to the placeholder), and otherwise emits the "I interpreted your
request as..." placeholder. -/
theorem deterministic_fallback_behavior (render : ℚ → String) (q s : String) :
    (resolveResponseText render none q = buildDeterministicAnswer render q) ∧
    (stripProviderNoise s = "" →
      resolveResponseText render (some s) q = buildDeterministicAnswer render q) ∧
    (containsCI "deprecated" (stripProviderNoise s) = true →
      resolveResponseText render (some s) q = buildDeterministicAnswer render q) ∧
    (∀ ans, capitalAnswerOf q = some ans →
      buildDeterministicAnswer render q = ans) ∧
    (∀ cap pc, capitalCapture (lowerOf (jsTrim q)) = some cap →
      deterministicCapitalMap.find?
        (fun p => p.1 == jsTrim (String.mk cap)) = some pc →
      buildDeterministicAnswer render q =
        "The capital of " ++ capitalizeWords (jsTrim (String.mk cap)) ++
          " is " ++ pc.2 ++ ".") ∧
    (∀ na nb, capitalAnswerOf q = none →
      arithMatch (jsTrim q).data = some (na, '/', nb) → numValue nb = 0 →
      buildDeterministicAnswer render q = interpretedPlaceholder (jsTrim q)) ∧
    (capitalAnswerOf q = none → arithMatch (jsTrim q).data = none →
      buildDeterministicAnswer render q = interpretedPlaceholder (jsTrim q)) ∧
    (∀ na op nb v, capitalAnswerOf q = none →
      arithMatch (jsTrim q).data = some (na, op, nb) →
      arithValue (numValue na) op (numValue nb) = some v →
      buildDeterministicAnswer render q =
        render (numValue na) ++ " " ++ String.mk [op] ++ " " ++
          render (numValue nb) ++ " = " ++ render v ++ ".") := by
  refine ⟨rfl, ?_, ?_, ?_, ?_, ?_, ?_, ?_⟩
  · intro h
    simp [resolveResponseText, h]
  · intro h
    simp only [resolveResponseText]
    split_ifs with h1 h2
    · rfl
    · rfl
    · rw [h] at h2
      simp at h2
  · intro ans h
    simp only [buildDeterministicAnswer, h]
  · intro cap pc h1 h2
    have hsome : capitalAnswerOf q =
        some ("The capital of " ++ capitalizeWords (jsTrim (String.mk cap)) ++
          " is " ++ pc.2 ++ ".") := by
      simp only [capitalAnswerOf, h1, h2]
    simp only [buildDeterministicAnswer, hsome]
  · intro na nb h1 h2 h3
    have hval : arithValue (numValue na) '/' (numValue nb) = none := by
      simp only [arithValue, h3]
      rw [if_neg (by decide), if_neg (by decide), if_neg (by decide)]
      simp
    simp only [buildDeterministicAnswer, h1, h2, hval]
  · intro h1 h2
    simp only [buildDeterministicAnswer, h1, h2]
  · intro na op nb v h1 h2 h3
    simp only [buildDeterministicAnswer, h1, h2, h3]

/-- Witness for C7 at the division-by-zero query `"what is 6 / 0"`. -/
theorem deterministic_fallback_behavior_witness :
    capitalAnswerOf "what is 6 / 0" = none ∧
    arithMatch (jsTrim "what is 6 / 0").data
      = some (⟨false, ['6'], []⟩, '/', ⟨false, ['0'], []⟩) ∧
    numValue ⟨false, ['0'], []⟩ = 0 ∧
    buildDeterministicAnswer (fun _ => "") "what is 6 / 0"
      = interpretedPlaceholder "what is 6 / 0" ∧
    resolveResponseText (fun _ => "") none "what is 6 / 0"
      = buildDeterministicAnswer (fun _ => "") "what is 6 / 0" := by
  have h1 : capitalAnswerOf "what is 6 / 0" = none := by decide
  have h2 : arithMatch (jsTrim "what is 6 / 0").data
      = some (⟨false, ['6'], []⟩, '/', ⟨false, ['0'], []⟩) := by decide
  have hd : digitsVal ['0'] = 0 := by decide
  have h3 : numValue (⟨false, ['0'], []⟩ : NumCapture) = 0 := by
    simp [numValue, digitsVal]
  have hth := deterministic_fallback_behavior (fun _ => "") "what is 6 / 0" ""
  have h4 := hth.2.2.2.2.2.1 ⟨false, ['6'], []⟩ ⟨false, ['0'], []⟩ h1 h2 h3
  have hjt : jsTrim "what is 6 / 0" = "what is 6 / 0" := by decide
  exact ⟨h1, h2, h3, by rw [← hjt]; exact h4, hth.1⟩


/-- `Map.set` on an absent key appends the entry. -/
theorem mapSet_append (l : List (String × CacheEntry)) (k : String)
    (e : CacheEntry) (h : ∀ p ∈ l, p.1 ≠ k) : mapSet l k e = l ++ [(k, e)] := by
  induction l with
  | nil => rfl
  | cons p rest ih =>
    simp only [mapSet]
    rw [if_neg (h p (List.mem_cons_self _ _)),
      ih (fun p' hp' => h p' (List.mem_cons_of_mem _ hp'))]
    rfl

/-- `set` keeps the configuration fields. -/
theorem set_config (c : QueryCache) (k v : String) (t : Nat) :
    (c.set k v t).maxSize = c.maxSize ∧ (c.set k v t).ttlMs = c.ttlMs := by
  unfold QueryCache.set
  constructor <;> (split <;> first | rfl | (split <;> rfl))

/-- Below capacity and with a fresh key, `set` appends. -/
theorem set_no_evict (c : QueryCache) (k v : String) (t : Nat)
    (hlen : c.entries.length < c.maxSize) (hk : ∀ p ∈ c.entries, p.1 ≠ k) :
    (c.set k v t).entries = c.entries ++ [(k, ⟨v, t⟩)] := by
  unfold QueryCache.set
  simp only []
  rw [if_neg (by omega)]
  exact mapSet_append _ _ _ hk

/-- At capacity with a fresh key, `set` deletes the first (oldest-inserted)
entry and appends the new one. -/
theorem set_evicts_head (c : QueryCache) (k v : String) (t : Nat)
    (hlen : c.entries.length = c.maxSize) (hpos : 1 ≤ c.maxSize)
    (hk : ∀ p ∈ c.entries, p.1 ≠ k) :
    (c.set k v t).entries = c.entries.tail ++ [(k, ⟨v, t⟩)] := by
  obtain ⟨p, rest, hc⟩ : ∃ p rest, c.entries = p :: rest := by
    cases hce : c.entries with
    | nil => rw [hce] at hlen; simp at hlen; omega
    | cons p rest => exact ⟨p, rest, rfl⟩
  unfold QueryCache.set
  simp only [hc]
  rw [if_pos (by rw [← hc, hlen])]
  simp only [List.tail_cons]
  exact mapSet_append rest k ⟨v, t⟩
    (fun p' hp' => hk p' (hc ▸ List.mem_cons_of_mem _ hp'))

/-- Filling distinct fresh keys within capacity appends them in order. -/
theorem fillCache_entries (kvs : List (String × String)) (c : QueryCache)
    (t0 : Nat) (hcap : c.entries.length + kvs.length ≤ c.maxSize)
    (hdisj : ∀ kv ∈ kvs, ∀ p ∈ c.entries, p.1 ≠ kv.1)
    (hnd : (kvs.map Prod.fst).Nodup) :
    (fillCache c kvs t0).entries =
      c.entries ++ kvs.map (fun kv => (kv.1, (⟨kv.2, t0⟩ : CacheEntry))) := by
  induction kvs generalizing c with
  | nil => simp [fillCache]
  | cons kv rest ih =>
    simp only [List.map_cons, List.length_cons] at hcap hnd ⊢
    have hset : (c.set kv.1 kv.2 t0).entries =
        c.entries ++ [(kv.1, (⟨kv.2, t0⟩ : CacheEntry))] :=
      set_no_evict c kv.1 kv.2 t0 (by omega)
        (fun p hp => hdisj kv (List.mem_cons_self _ _) p hp)
    have hcfg := set_config c kv.1 kv.2 t0
    have hrec := ih (c.set kv.1 kv.2 t0)
      (by rw [hcfg.1, hset]; simp; omega)
      (by
        intro kv' hkv' p hp
        rw [hset] at hp
        rcases List.mem_append.mp hp with hp1 | hp2
        · exact hdisj kv' (List.mem_cons_of_mem _ hkv') p hp1
        · have : p = (kv.1, (⟨kv.2, t0⟩ : CacheEntry)) := by simpa using hp2
          subst this
          intro hcontra
          exact (List.nodup_cons.mp hnd).1
            (hcontra ▸ List.mem_map_of_mem Prod.fst hkv'))
      (List.nodup_cons.mp hnd).2
    show (fillCache (c.set kv.1 kv.2 t0) rest t0).entries = _
    rw [hrec, hset]
    simp

/-- `fillCache` keeps the configuration fields. -/
theorem fillCache_config (kvs : List (String × String)) (c : QueryCache)
    (t0 : Nat) : (fillCache c kvs t0).maxSize = c.maxSize ∧
      (fillCache c kvs t0).ttlMs = c.ttlMs := by
  induction kvs generalizing c with
  | nil => exact ⟨rfl, rfl⟩
  | cons kv rest ih =>
    have h1 := ih (c.set kv.1 kv.2 t0)
    have h2 := set_config c kv.1 kv.2 t0
    exact ⟨h1.1.trans h2.1, h1.2.trans h2.2⟩

/-- A `get` whose target is fresh (or absent) leaves the cache unchanged. -/
theorem get_preserves_fresh (c : QueryCache) (key : String) (now : Nat)
    (h : ∀ p ∈ c.entries, now - p.2.timestamp ≤ c.ttlMs) :
    (c.get key now).2 = c := by
  unfold QueryCache.get
  cases hf : c.entries.find? (fun p => p.1 == key) with
  | none => rfl
  | some p =>
    have hp : p ∈ c.entries := List.mem_of_find?_eq_some hf
    have hle : ¬ (now - p.2.timestamp > c.ttlMs) := by
      have := h p hp
      omega
    simp [hle]

/-- A sequence of fresh `get`s leaves the cache unchanged. -/
theorem applyGets_preserves (gets : List (String × Nat)) (c : QueryCache)
    (h : ∀ g ∈ gets, ∀ p ∈ c.entries, g.2 - p.2.timestamp ≤ c.ttlMs) :
    applyGets c gets = c := by
  induction gets with
  | nil => rfl
  | cons g rest ih =>
    show applyGets ((c.get g.1 g.2).2) rest = c
    rw [get_preserves_fresh c g.1 g.2 (fun p hp => h g (List.mem_cons_self _ _) p hp)]
    exact ih (fun g' hg' p hp => h g' (List.mem_cons_of_mem _ hg') p hp)

/-- With duplicate-free keys, `find?` locates a member entry. -/
theorem find?_eq_of_mem_nodup (l : List (String × CacheEntry)) (k : String)
    (e : CacheEntry) (hmem : (k, e) ∈ l) (hnd : (l.map Prod.fst).Nodup) :
    l.find? (fun p => p.1 == k) = some (k, e) := by
  induction l with
  | nil => simp at hmem
  | cons p rest ih =>
    simp only [List.map_cons, List.nodup_cons] at hnd
    rcases List.mem_cons.mp hmem with heq | hmem'
    · subst heq
      simp [List.find?]
    · have hkmem : k ∈ rest.map Prod.fst := by
        have := List.mem_map_of_mem Prod.fst hmem'
        simpa using this
      have hne : (p.1 == k) = false := by
        rw [beq_eq_false_iff_ne]
        intro hpk
        exact hnd.1 (hpk ▸ hkmem)
      simp only [List.find?, hne]
      exact ih hmem' hnd.2

/-- A fresh member entry is returned by `get`. -/
theorem get_hit (c : QueryCache) (k : String) (e : CacheEntry) (now : Nat)
    (hnd : (c.entries.map Prod.fst).Nodup) (hmem : (k, e) ∈ c.entries)
    (hfresh : now - e.timestamp ≤ c.ttlMs) :
    (c.get k now).1 = some e.value := by
  unfold QueryCache.get
  rw [find?_eq_of_mem_nodup c.entries k e hmem hnd]
  have hle : ¬ (now - e.timestamp > c.ttlMs) := by omega
  simp [hle]

/-- A stored entry older than the TTL at read time yields a miss. -/
theorem get_expired_miss (c : QueryCache) (k : String) (e : CacheEntry)
    (now : Nat) (hnd : (c.entries.map Prod.fst).Nodup)
    (hmem : (k, e) ∈ c.entries) (hexp : c.ttlMs < now - e.timestamp) :
    (c.get k now).1 = none := by
  unfold QueryCache.get
  rw [find?_eq_of_mem_nodup c.entries k e hmem hnd]
  have hgt : now - e.timestamp > c.ttlMs := by omega
  simp [hgt]

/-- A key held by no entry yields a miss. -/
theorem get_absent (c : QueryCache) (k : String) (now : Nat)
    (h : ∀ p ∈ c.entries, p.1 ≠ k) : (c.get k now).1 = none := by
  have hf : c.entries.find? (fun p => p.1 == k) = none := by
    rw [List.find?_eq_none]
    intro p hp
    simpa using h p hp
  unfold QueryCache.get
  rw [hf]


/-- C8: for a cache of capacity `maxSize`, inserting `maxSize` entries under
distinct keys and then one more under a new key evicts exactly the
first-inserted key — insertion order, not access order: intervening fresh
`get` calls do not change the cache state, hence not which entry is evicted
— and every other entry remains retrievable; and for every key whose entry
is older than `ttlMs` at read time, `get` returns the not-found value even
though the entry was still stored. -/
theorem cache_eviction_and_ttl (N ttl t0 t' : Nat)
    (kvs : List (String × String)) (gets : List (String × Nat))
    (k' v' : String)
    (hlen : kvs.length = N) (hpos : 1 ≤ N)
    (hnd : (kvs.map Prod.fst).Nodup)
    (hfreshg : ∀ g ∈ gets, g.2 - t0 ≤ ttl)
    (hnew : ∀ kv ∈ kvs, kv.1 ≠ k') :
    (fillCache ⟨[], N, ttl⟩ kvs t0).entries
      = kvs.map (fun kv => (kv.1, (⟨kv.2, t0⟩ : CacheEntry))) ∧
    applyGets (fillCache ⟨[], N, ttl⟩ kvs t0) gets
      = fillCache ⟨[], N, ttl⟩ kvs t0 ∧
    ((applyGets (fillCache ⟨[], N, ttl⟩ kvs t0) gets).set k' v' t').entries
      = (kvs.map (fun kv => (kv.1, (⟨kv.2, t0⟩ : CacheEntry)))).tail
          ++ [(k', ⟨v', t'⟩)] ∧
    (∀ kv ∈ kvs.tail, ∀ now, now - t0 ≤ ttl →
      (((applyGets (fillCache ⟨[], N, ttl⟩ kvs t0) gets).set k' v' t').get
        kv.1 now).1 = some kv.2) ∧
    (∀ k0 v0 rest, kvs = (k0, v0) :: rest → ∀ now,
      (((applyGets (fillCache ⟨[], N, ttl⟩ kvs t0) gets).set k' v' t').get
        k0 now).1 = none) ∧
    (∀ (c : QueryCache) (k : String) (e : CacheEntry) (now : Nat),
      (c.entries.map Prod.fst).Nodup → (k, e) ∈ c.entries →
      c.ttlMs < now - e.timestamp → (c.get k now).1 = none) := by
  have hcfg := fillCache_config kvs ⟨[], N, ttl⟩ t0
  set c0 := fillCache ⟨[], N, ttl⟩ kvs t0 with hc0
  have hA : c0.entries = kvs.map (fun kv => (kv.1, (⟨kv.2, t0⟩ : CacheEntry))) := by
    have := fillCache_entries kvs ⟨[], N, ttl⟩ t0 (by simp [hlen])
      (by intro kv _ p hp; simp at hp) hnd
    simpa using this
  have hB : applyGets c0 gets = c0 := by
    apply applyGets_preserves
    intro g hg p hp
    rw [hA] at hp
    obtain ⟨kv, _, rfl⟩ := List.mem_map.mp hp
    show g.2 - t0 ≤ c0.ttlMs
    rw [hcfg.2]
    exact hfreshg g hg
  have hC : (c0.set k' v' t').entries =
      (kvs.map (fun kv => (kv.1, (⟨kv.2, t0⟩ : CacheEntry)))).tail
        ++ [(k', ⟨v', t'⟩)] := by
    rw [← hA]
    exact set_evicts_head c0 k' v' t'
      (by rw [hA, hcfg.1]; simpa using hlen)
      (by rw [hcfg.1]; exact hpos)
      (by
        intro p hp
        rw [hA] at hp
        obtain ⟨kv, hkv, rfl⟩ := List.mem_map.mp hp
        exact hnew kv hkv)
  have httl1 : (c0.set k' v' t').ttlMs = ttl :=
    (set_config c0 k' v' t').2.trans hcfg.2
  obtain ⟨⟨k0, v0⟩, rest, rfl⟩ : ∃ a r, kvs = a :: r := by
    cases kvs with
    | nil => simp at hlen; omega
    | cons a r => exact ⟨a, r, rfl⟩
  have htail : (((k0, v0) :: rest).map
      (fun kv => (kv.1, (⟨kv.2, t0⟩ : CacheEntry)))).tail
      = rest.map (fun kv => (kv.1, (⟨kv.2, t0⟩ : CacheEntry))) := by
    simp
  have hndc : (((c0.set k' v' t').entries).map Prod.fst).Nodup := by
    rw [hC, htail]
    simp only [List.map_append, List.map_map]
    have hrk : rest.map (Prod.fst ∘ fun kv =>
        (kv.1, (⟨kv.2, t0⟩ : CacheEntry))) = rest.map Prod.fst := by
      simp [Function.comp]
    rw [hrk]
    simp only [List.map_cons, List.nodup_cons] at hnd
    rw [List.nodup_append]
    refine ⟨hnd.2, by simp, ?_⟩
    intro a ha hmem
    have ha' : a = k' := by simpa using hmem
    subst ha'
    obtain ⟨kv, hkv, hfst⟩ := List.mem_map.mp ha
    exact hnew kv (List.mem_cons_of_mem _ hkv) hfst
  refine ⟨hA, hB, by rw [hB]; exact hC, ?_, ?_, ?_⟩
  · intro kv hkv now hnow
    rw [hB]
    have hmem : (kv.1, (⟨kv.2, t0⟩ : CacheEntry)) ∈ (c0.set k' v' t').entries := by
      rw [hC, htail]
      exact List.mem_append_left _ (List.mem_map_of_mem _ (by simpa using hkv))
    exact get_hit (c0.set k' v' t') kv.1 ⟨kv.2, t0⟩ now hndc hmem
      (by rw [httl1]; simpa using hnow)
  · intro ka va resta heq now
    rw [hB]
    simp only [List.cons.injEq, Prod.mk.injEq] at heq
    obtain ⟨⟨hk, -⟩, -⟩ := heq
    subst hk
    apply get_absent
    intro p hp
    rw [hC, htail] at hp
    rcases List.mem_append.mp hp with hp1 | hp2
    · obtain ⟨kv, hkv, rfl⟩ := List.mem_map.mp hp1
      simp only [List.map_cons, List.nodup_cons] at hnd
      intro hcontra
      exact hnd.1 (hcontra ▸ List.mem_map_of_mem Prod.fst hkv)
    · have : p = (k', (⟨v', t'⟩ : CacheEntry)) := by simpa using hp2
      subst this
      exact fun hcontra => hnew (k0, v0) (List.mem_cons_self _ _) hcontra.symm
  · exact fun c k e now hnd' hmem' hexp' => get_expired_miss c k e now hnd' hmem' hexp'


/-- Witness for C8 at capacity 2 and TTL 100: keys k1, k2 inserted at time
0, a fresh read of k1 at time 50, then inserting k3 at 60 evicts exactly
k1; k2 and k3 remain retrievable at 70; and a read of k1 at time 150 on
the filled cache misses by TTL expiry even though the entry is stored. -/
theorem cache_eviction_and_ttl_witness :
    (((applyGets (fillCache ⟨[], 2, 100⟩ [("k1", "v1"), ("k2", "v2")] 0)
        [("k1", 50)]).set "k3" "v3" 60).get "k2" 70).1 = some "v2" ∧
    (((applyGets (fillCache ⟨[], 2, 100⟩ [("k1", "v1"), ("k2", "v2")] 0)
        [("k1", 50)]).set "k3" "v3" 60).get "k1" 70).1 = none ∧
    (((applyGets (fillCache ⟨[], 2, 100⟩ [("k1", "v1"), ("k2", "v2")] 0)
        [("k1", 50)]).set "k3" "v3" 60).get "k3" 70).1 = some "v3" ∧
    ((fillCache ⟨[], 2, 100⟩ [("k1", "v1"), ("k2", "v2")] 0).get "k1"
      150).1 = none := by
  have h := cache_eviction_and_ttl 2 100 0 60 [("k1", "v1"), ("k2", "v2")]
    [("k1", 50)] "k3" "v3" rfl (by omega) (by decide) (by decide) (by decide)
  refine ⟨?_, ?_, by decide, ?_⟩
  · exact h.2.2.2.1 ("k2", "v2") (by decide) 70 (by omega)
  · exact h.2.2.2.2.1 "k1" "v1" [("k2", "v2")] rfl 70
  · exact h.2.2.2.2.2 (fillCache ⟨[], 2, 100⟩ [("k1", "v1"), ("k2", "v2")] 0)
      "k1" ⟨"v1", 0⟩ 150 (by decide) (by decide) (by decide)

end AdanAgent
